import Mathlib

/-!
# kgateway: policy equality and the Envoy config validator

A shallow embedding of

* `pkg/pluginsdk/ir/iface.go`: `versionEquals`, `PolicyWrapper.Equals`,
  `TypedFilterConfigMap` and the two `Unimplemented...TranslationPass` types;
* `pkg/validator/validator.go`: `NewBinary`, `NewDocker`, `extractEnvoyError`,
  `binaryValidator.Validate` and `dockerValidator.Validate`;
* `pkg/agentgateway/plugins/collection.go`: `AgwCollections.HasSynced`.

Conventions of the embedding.

* A Go interface value that may be nil is an `Option`; a call that would
  dereference a nil interface (a Go panic) makes the embedded function
  return `none`.
* A Go `string` is a list of characters (`Str`), so the embedding covers the
  strings that are valid UTF-8.
* The outside world (the `error` values stored in a policy, the plugin's
  `PolicyIR.Equals`, the process started by `cmd.Run()`) is taken as a
  parameter.
-/

namespace Kgateway

/-! ## Go library functions used by the embedded code -/

/-- Go strings, as lists of characters. -/
abbrev Str := List Char

/-- The loop of `slices.EqualFunc` over two slices of the same length: the
elements are compared pairwise, stopping at the first pair that `eq` rejects. -/
def EqualFunc.loop {α β : Type} (eq : α → β → Bool) : List α → List β → Bool
  | v1 :: r1, v2 :: r2 => if !eq v1 v2 then false else EqualFunc.loop eq r1 r2
  | _, _ => true

/-- The function `slices.EqualFunc`: the lengths are compared first, then the
elements pairwise, stopping at the first pair that `eq` rejects. -/
def EqualFunc {α β : Type} (s1 : List α) (s2 : List β) (eq : α → β → Bool) : Bool :=
  if s1.length != s2.length then false
  else EqualFunc.loop eq s1 s2

/-- The function `slices.IndexFunc`, as its loop from index `i` on: the index of
the first element satisfying `f`, or -1. -/
def IndexFunc.loop {α : Type} (f : α → Bool) : List α → Nat → Int
  | [], _ => -1
  | v :: rest, i => if f v then (i : Int) else IndexFunc.loop f rest (i + 1)

/-- The function `slices.IndexFunc`. -/
def IndexFunc {α : Type} (s : List α) (f : α → Bool) : Int :=
  IndexFunc.loop f s 0

/-- The function `unicode.IsSpace`: in Latin-1 the characters tab, line feed,
vertical tab, form feed, carriage return, space, U+0085 and U+00A0; beyond it
the characters of the Unicode property White_Space. -/
def IsSpace (r : Char) : Bool :=
  if r.toNat ≤ 0xFF then
    r.toNat == 0x09 || r.toNat == 0x0A || r.toNat == 0x0B || r.toNat == 0x0C ||
      r.toNat == 0x0D || r.toNat == 0x20 || r.toNat == 0x85 || r.toNat == 0xA0
  else
    r.toNat == 0x1680 || (0x2000 ≤ r.toNat && r.toNat ≤ 0x200A) ||
      r.toNat == 0x2028 || r.toNat == 0x2029 || r.toNat == 0x202F ||
      r.toNat == 0x205F || r.toNat == 0x3000

/-- The function `strings.TrimSpace`, which is `TrimRightFunc (TrimLeftFunc s
unicode.IsSpace) unicode.IsSpace`: the leading and the trailing white space
removed. -/
def TrimSpace (s : Str) : Str :=
  ((s.dropWhile IsSpace).reverse.dropWhile IsSpace).reverse

/-- The function `strings.HasPrefix`. -/
def HasPrefix (s pre : Str) : Bool := pre.isPrefixOf s

/-- The function `strings.Contains`: `substr` starts at some position of `s`. -/
def Contains : Str → Str → Bool
  | [], substr => HasPrefix [] substr
  | c :: s, substr => HasPrefix (c :: s) substr || Contains s substr

/-- The function `strings.Split` for a separator of one character: the pieces
of `s` between the occurrences of `sep`; always at least one piece. -/
def Split : Str → Char → List Str
  | [], _ => [[]]
  | c :: s, sep =>
    if c = sep then [] :: Split s sep
    else
      match Split s sep with
      | [] => [[c]]
      | piece :: pieces => (c :: piece) :: pieces

/-- The function `strings.Join`. -/
def Join : List Str → Str → Str
  | [], _ => []
  | [a], _ => a
  | a :: b :: rest, sep => a ++ sep ++ Join (b :: rest) sep

/-! ## pkg/pluginsdk/ir: data model -/

/-- Modelled from the spec: the struct `ObjectSource` is declared in a file of
the package that is not among the sources; the spec gives it as the identity of
a source API object: group, kind, namespace, name. Go compares two such structs
with `!=` field by field. -/
structure ObjectSource where
  Group : String
  Kind : String
  Namespace : String
  Name : String
deriving DecidableEq, Repr

/-- The part of a `metav1.Object` that `versionEquals` reads through
`GetGeneration` (an int64), `GetResourceVersion` and `GetUID`. -/
structure Object where
  Generation : Int
  ResourceVersion : String
  UID : String
deriving DecidableEq, Repr

/-- A non-nil Go `error` value. `ident` stands for what distinguishes the value
(its dynamic type and address); `msg` is what its `Error()` method returns. Two
different errors may well return the same message. -/
structure GoError where
  ident : Nat
  msg : String
deriving DecidableEq, Repr

/-- The method `Error()` of a non-nil error. -/
def GoError.Error (e : GoError) : String := e.msg

/-- Modelled from the spec: the struct `PolicyRef` is declared in a file of the
package that is not among the sources; the spec gives it as group, kind,
namespace, name plus an optional section name and an optional port. -/
structure PolicyRef where
  Group : String
  Kind : String
  Namespace : String
  Name : String
  SectionName : Option String
  Port : Option Nat
deriving DecidableEq, Repr

/-- The struct `PolicyWrapper`. `P` is the type of the non-nil `PolicyIR`
values (of whatever plugin); `Policy` and `PolicyIR` are interface values and
may be nil; an entry of `Errors` may be a nil error. -/
structure PolicyWrapper (P : Type) where
  ObjectSource : ObjectSource
  Policy : Option Object
  Errors : List (Option GoError)
  PolicyIR : Option P
  TargetRefs : List PolicyRef
  PrecedenceWeight : Int

/-! ## pkg/pluginsdk/ir: `versionEquals` and `PolicyWrapper.Equals` -/

/-- The function `versionEquals`. Calling a method of a nil `metav1.Object`
panics, and both arguments have a method called on every path. -/
def versionEquals (a b : Option Object) : Option Bool :=
  match a, b with
  | some a, some b =>
    let versionEquals : Bool :=
      if a.Generation != 0 && b.Generation != 0 then
        a.Generation == b.Generation
      else
        a.ResourceVersion == b.ResourceVersion
    some (versionEquals && a.UID == b.UID)
  | _, _ => none

/-- The closure that `PolicyWrapper.Equals` hands to `slices.EqualFunc`. -/
def errorEq (e1 e2 : Option GoError) : Bool :=
  if e1 == none && e2 != none then false
  else if e1 != none && e2 == none then false
  else
    match e1, e2 with
    | some x, some y => if x.Error != y.Error then false else true
    | _, _ => true

/-- The method `PolicyWrapper.Equals`. `irEquals x y` is the plugin's
`x.Equals(y)` for a non-nil receiver `x`; its argument may be a nil interface.
The `&&` chain of the last line is evaluated left to right and stops at the
first false operand, so `c.PolicyIR` is dereferenced only when `versionEquals`
returned true. -/
def PolicyWrapper.Equals {P : Type} (irEquals : P → Option P → Bool)
    (c other : PolicyWrapper P) : Option Bool :=
  if c.ObjectSource != other.ObjectSource then some false
  else if !EqualFunc c.Errors other.Errors errorEq then some false
  else
    match versionEquals c.Policy other.Policy with
    | none => none
    | some false => some false
    | some true =>
      match c.PolicyIR with
      | none => none
      | some ir =>
        if !irEquals ir other.PolicyIR then some false
        else some (c.PrecedenceWeight == other.PrecedenceWeight)

/-! ## pkg/validator -/

/-- The text that Envoy prints in front of a configuration error. -/
def marker : Str := "error initializing configuration".toList

/-- The loop of `extractEnvoyError` over `lines[i]` for `i` from `errorIndex` to
the end: the first argument is what is left of `lines` from index `i` on, the
second is `remainingLines`. -/
def extractEnvoyError.loop : List Str → List Str → List Str
  | [], remainingLines => remainingLines
  | line :: rest, remainingLines =>
    let trimmed := TrimSpace line
    if trimmed != [] then extractEnvoyError.loop rest (remainingLines ++ [trimmed])
    else extractEnvoyError.loop rest remainingLines

/-- The function `extractEnvoyError`. -/
def extractEnvoyError (stderr : Str) : Str :=
  let lines := Split stderr (Char.ofNat 10)
  let errorIndex := IndexFunc lines (fun line => Contains (TrimSpace line) marker)
  if errorIndex == -1 then []
  else
    let remainingLines := extractEnvoyError.loop (lines.drop errorIndex.toNat) []
    Join remainingLines [' ']

/-- The errors that the validators return. `ErrInvalidXDS` is the package
variable made once by `errors.New`; `errorString` is a value freshly made by
`fmt.Errorf` without `%w` (never identical to the package variable);
`wrapError` is a value made by `fmt.Errorf` with one `%w`. -/
inductive XdsError where
  | ErrInvalidXDS : XdsError
  | errorString (s : Str) : XdsError
  | wrapError (msg : Str) (err : XdsError) : XdsError
deriving DecidableEq, Repr

/-- The method `Error()`. -/
def XdsError.Error : XdsError → Str
  | .ErrInvalidXDS => "invalid xds configuration".toList
  | .errorString s => s
  | .wrapError msg _ => msg

/-- The test `errors.Is(e, ErrInvalidXDS)`: `e` is the package variable or
wraps it, at any depth. -/
def XdsError.IsErrInvalidXDS : XdsError → Bool
  | .ErrInvalidXDS => true
  | .errorString _ => false
  | .wrapError _ err => err.IsErrInvalidXDS

/-- The call `fmt.Errorf("%w: %s", e, s)`. -/
def ErrorfWrap (e : XdsError) (s : Str) : XdsError :=
  .wrapError (e.Error ++ ": ".toList ++ s) e

/-- The error that `cmd.Run()` returns: whether its dynamic type is
`*exec.ExitError` (the process ran and exited with a failure status), and the
text of its `Error()`. -/
structure RunError where
  isExitError : Bool
  text : Str
deriving DecidableEq, Repr

/-- The method `Error()` of the error of a run. -/
def RunError.Error (e : RunError) : Str := e.text

/-- A command as `exec.CommandContext` builds it, with its standard input. -/
structure Cmd where
  name : Str
  args : List Str
  stdin : Str
deriving DecidableEq, Repr

/-- What `cmd.Run()` gives back: its error (nil on success) and what the process
wrote to its standard output and standard error. -/
structure RunResult where
  err : Option RunError
  stdout : Str
  stderr : Str
deriving DecidableEq, Repr

/-- The struct `binaryValidator`. -/
structure binaryValidator where
  path : Str
deriving DecidableEq, Repr

/-- The command that `binaryValidator.Validate` runs. -/
def binaryValidator.cmd (b : binaryValidator) (json : Str) : Cmd :=
  { name := b.path
    args := ["--mode".toList, "validate".toList, "--config-path".toList,
      "/dev/fd/0".toList, "-l".toList, "critical".toList, "--log-format".toList,
      "%v".toList]
    stdin := json }

/-- The method `binaryValidator.Validate`; `run` is `cmd.Run()`. The result
`none` is the nil error. -/
def binaryValidator.Validate (run : Cmd → RunResult) (b : binaryValidator)
    (json : Str) : Option XdsError :=
  let r := run (b.cmd json)
  match r.err with
  | some err =>
    let rawErr := TrimSpace r.stderr
    if err.isExitError then
      let rawErr := if rawErr == [] then err.Error else rawErr
      some (ErrorfWrap .ErrInvalidXDS rawErr)
    else
      some (.errorString ("envoy validate invocation failed: ".toList ++ err.Error))
  | none => none

/-- The struct `dockerValidator`. -/
structure dockerValidator where
  img : Str
deriving DecidableEq, Repr

/-- The command that `dockerValidator.Validate` runs. -/
def dockerValidator.cmd (d : dockerValidator) (json : Str) : Cmd :=
  { name := "docker".toList
    args := ["run".toList, "--rm".toList, "-i".toList, "--platform".toList,
      "linux/amd64".toList, d.img, "--mode".toList, "validate".toList,
      "--config-path".toList, "/dev/fd/0".toList, "-l".toList, "critical".toList,
      "--log-format".toList, "%v".toList]
    stdin := json }

/-- The method `dockerValidator.Validate`; `run` is `cmd.Run()`. The result
`none` is the nil error. -/
def dockerValidator.Validate (run : Cmd → RunResult) (d : dockerValidator)
    (json : Str) : Option XdsError :=
  let r := run (d.cmd json)
  match r.err with
  | none => none
  | some err =>
    let rawErr := TrimSpace r.stderr
    if err.isExitError then
      let envoyErr := extractEnvoyError rawErr
      if envoyErr != [] then some (ErrorfWrap .ErrInvalidXDS envoyErr)
      else
        let rawErr := if rawErr == [] then err.Error else rawErr
        some (ErrorfWrap .ErrInvalidXDS rawErr)
    else
      some (.errorString ("envoy validate invocation failed: ".toList ++ err.Error))

/-- The package variable `defaultEnvoyPath`. -/
def defaultEnvoyPath : Str := "/usr/local/bin/envoy".toList

/-- The package variable `defaultEnvoyImage`. -/
def defaultEnvoyImage : Str := "quay.io/solo-io/envoy-gloo:1.35.2-patch4".toList

/-- The function `NewBinary`; its variadic parameter is the list of the
arguments of the call. The result `none` would be the panic of `path[0]` on an
empty slice. -/
def NewBinary (path : List Str) : Option binaryValidator :=
  let path := if path.length == 0 then [defaultEnvoyPath] else path
  match path[0]? with
  | some p => some { path := p }
  | none => none

/-- The function `NewDocker`; its variadic parameter is the list of the
arguments of the call. The result `none` would be the panic of `img[0]` on an
empty slice. -/
def NewDocker (img : List Str) : Option dockerValidator :=
  let img := if img.length == 0 then [defaultEnvoyImage] else img
  match img[0]? with
  | some i => some { img := i }
  | none => none

/-! ## pkg/pluginsdk/ir: `TypedFilterConfigMap` -/

/-- The type `TypedFilterConfigMap`, a Go `map[string]proto.Message`: `none` is
the nil map; in a non-nil map a key is absent (`none`) or bound to a message,
which is an interface value and may itself be nil. -/
abbrev TypedFilterConfigMap (M : Type) := Option (String → Option (Option M))

/-- The method `AddTypedConfig`. The receiver `r` is a pointer to a map: `none`
is the nil pointer, on which `*r` panics (result `none`); otherwise the result
is the map that the pointer refers to after the call. -/
def TypedFilterConfigMap.AddTypedConfig {M : Type} (r : Option (TypedFilterConfigMap M))
    (key : String) (v : Option M) : Option (TypedFilterConfigMap M) :=
  match r with
  | none => none
  | some m =>
    let m : String → Option (Option M) :=
      match m with
      | none => fun _ => none
      | some f => f
    some (some (fun k => if k = key then some v else m k))

/-- The method `GetTypedConfig`; the result `none` is the nil message. -/
def TypedFilterConfigMap.GetTypedConfig {M : Type} (r : Option (TypedFilterConfigMap M))
    (key : String) : Option M :=
  match r with
  | none => none
  | some none => none
  | some (some f) =>
    match f key with
    | some v => v
    | none => none

/-! ## pkg/pluginsdk/ir: the default translation passes -/

/-- The struct `Resources`; `Cluster` stands for `*envoyclusterv3.Cluster`. -/
structure Resources (Cluster : Type) where
  Clusters : List Cluster
deriving DecidableEq, Repr

/-- The struct `UnimplementedProxyTranslationPass`, which has no field. -/
inductive UnimplementedProxyTranslationPass where
  | mk : UnimplementedProxyTranslationPass
deriving DecidableEq, Repr

/-- The struct `UnimplementedAgentgatewayTranslationPass`, which has no field. -/
inductive UnimplementedAgentgatewayTranslationPass where
  | mk : UnimplementedAgentgatewayTranslationPass
deriving DecidableEq, Repr

/-- What a hook leaves behind: what its context and output pointers refer to
after the call, and the error it returns (`none` is nil). The hooks below take
the context and the output as values of any type, since their bodies never look
at them; a nil pointer is one such value. -/
structure HookResult (Ctx Out : Type) where
  pCtx : Ctx
  out : Out
  err : Option GoError

/-- The method `UnimplementedAgentgatewayTranslationPass.ApplyForRoute`. -/
def UnimplementedAgentgatewayTranslationPass.ApplyForRoute {Ctx Out : Type}
    (_s : UnimplementedAgentgatewayTranslationPass) (pCtx : Ctx) (out : Out) :
    HookResult Ctx Out :=
  { pCtx := pCtx, out := out, err := none }

/-- The method `UnimplementedAgentgatewayTranslationPass.ApplyForBackend`. -/
def UnimplementedAgentgatewayTranslationPass.ApplyForBackend {Ctx Out : Type}
    (_s : UnimplementedAgentgatewayTranslationPass) (pCtx : Ctx) (out : Out) :
    HookResult Ctx Out :=
  { pCtx := pCtx, out := out, err := none }

/-- The method `UnimplementedAgentgatewayTranslationPass.ApplyForRouteBackend`;
it has no output argument, so the policy stands in the `out` place. -/
def UnimplementedAgentgatewayTranslationPass.ApplyForRouteBackend {Pol Ctx : Type}
    (_s : UnimplementedAgentgatewayTranslationPass) (policy : Pol) (pCtx : Ctx) :
    HookResult Ctx Pol :=
  { pCtx := pCtx, out := policy, err := none }

/-- The method `UnimplementedProxyTranslationPass.ApplyListenerPlugin`, which
returns nothing: the result is what the two pointers refer to afterwards. -/
def UnimplementedProxyTranslationPass.ApplyListenerPlugin {Ctx Out : Type}
    (_s : UnimplementedProxyTranslationPass) (pCtx : Ctx) (out : Out) : Ctx × Out :=
  (pCtx, out)

/-- The method `UnimplementedProxyTranslationPass.ApplyHCM`. -/
def UnimplementedProxyTranslationPass.ApplyHCM {Ctx Out : Type}
    (_s : UnimplementedProxyTranslationPass) (pCtx : Ctx) (out : Out) : HookResult Ctx Out :=
  { pCtx := pCtx, out := out, err := none }

/-- The method `UnimplementedProxyTranslationPass.ApplyForBackend`; `inp` is its
argument `in`. -/
def UnimplementedProxyTranslationPass.ApplyForBackend {Ctx Backend Out : Type}
    (_s : UnimplementedProxyTranslationPass) (pCtx : Ctx) (_inp : Backend) (out : Out) :
    HookResult Ctx Out :=
  { pCtx := pCtx, out := out, err := none }

/-- The method `UnimplementedProxyTranslationPass.ApplyRouteConfigPlugin`, which
returns nothing. -/
def UnimplementedProxyTranslationPass.ApplyRouteConfigPlugin {Ctx Out : Type}
    (_s : UnimplementedProxyTranslationPass) (pCtx : Ctx) (out : Out) : Ctx × Out :=
  (pCtx, out)

/-- The method `UnimplementedProxyTranslationPass.ApplyVhostPlugin`, which
returns nothing. -/
def UnimplementedProxyTranslationPass.ApplyVhostPlugin {Ctx Out : Type}
    (_s : UnimplementedProxyTranslationPass) (pCtx : Ctx) (out : Out) : Ctx × Out :=
  (pCtx, out)

/-- The method `UnimplementedProxyTranslationPass.ApplyForRoute`. -/
def UnimplementedProxyTranslationPass.ApplyForRoute {Ctx Out : Type}
    (_s : UnimplementedProxyTranslationPass) (pCtx : Ctx) (out : Out) : HookResult Ctx Out :=
  { pCtx := pCtx, out := out, err := none }

/-- The method `UnimplementedProxyTranslationPass.ApplyForRouteBackend`; it has
no output argument, so the policy stands in the `out` place. -/
def UnimplementedProxyTranslationPass.ApplyForRouteBackend {Pol Ctx : Type}
    (_s : UnimplementedProxyTranslationPass) (policy : Pol) (pCtx : Ctx) :
    HookResult Ctx Pol :=
  { pCtx := pCtx, out := policy, err := none }

/-- The method `UnimplementedProxyTranslationPass.HttpFilters`: the nil slice
and the nil error. -/
def UnimplementedProxyTranslationPass.HttpFilters {FilterChain Filter : Type}
    (_s : UnimplementedProxyTranslationPass) (_fc : FilterChain) :
    List Filter × Option GoError :=
  ([], none)

/-- The method `UnimplementedProxyTranslationPass.NetworkFilters`: the nil slice
and the nil error. -/
def UnimplementedProxyTranslationPass.NetworkFilters {Filter : Type}
    (_s : UnimplementedProxyTranslationPass) : List Filter × Option GoError :=
  ([], none)

/-- The method `UnimplementedProxyTranslationPass.ResourcesToAdd`: the zero
value `Resources{}`, whose `Clusters` is the nil slice. -/
def UnimplementedProxyTranslationPass.ResourcesToAdd {Cluster : Type}
    (_s : UnimplementedProxyTranslationPass) : Resources Cluster :=
  { Clusters := [] }

/-! ## pkg/agentgateway/plugins: `AgwCollections.HasSynced` -/

/-- A non-nil collection (a `krt.Collection`, or the `RefGrantIndex` behind
`RefGrants`) at the moment `HasSynced` is asked: `synced` is what its own
`HasSynced()` returns. -/
structure KrtCollection where
  synced : Bool
deriving DecidableEq, Repr

/-- The call `x.HasSynced()` on a collection that may be nil; on nil it panics
(`none`). -/
def KrtCollection.HasSynced (x : Option KrtCollection) : Option Bool :=
  match x with
  | none => none
  | some col => some col.synced

/-- The struct `AgwCollections`, without its clients and options: the
collections, each possibly nil, and the three names. -/
structure AgwCollections where
  Namespaces : Option KrtCollection
  Nodes : Option KrtCollection
  Pods : Option KrtCollection
  Services : Option KrtCollection
  Secrets : Option KrtCollection
  ConfigMaps : Option KrtCollection
  EndpointSlices : Option KrtCollection
  GatewayClasses : Option KrtCollection
  Gateways : Option KrtCollection
  HTTPRoutes : Option KrtCollection
  GRPCRoutes : Option KrtCollection
  TCPRoutes : Option KrtCollection
  TLSRoutes : Option KrtCollection
  ReferenceGrants : Option KrtCollection
  BackendTLSPolicies : Option KrtCollection
  InferencePools : Option KrtCollection
  WrappedPods : Option KrtCollection
  RefGrants : Option KrtCollection
  Backends : Option KrtCollection
  TrafficPolicies : Option KrtCollection
  DirectResponses : Option KrtCollection
  GatewayExtensions : Option KrtCollection
  ControllerName : String
  SystemNamespace : String
  ClusterID : String
deriving DecidableEq, Repr

/-- A chain `a && b && ...` of Go: the operands are evaluated from the left, the
chain stops with false at the first false operand, and an operand that panics
(`none`) makes the chain panic only if it is reached. -/
def andChain : List (Option Bool) → Option Bool
  | [] => some true
  | none :: _ => none
  | some false :: _ => some false
  | some true :: rest => andChain rest

/-- The method `AgwCollections.HasSynced`; `x.isSome` is the test `x != nil`. -/
def AgwCollections.HasSynced (c : AgwCollections) : Option Bool :=
  andChain
    [some c.Namespaces.isSome, KrtCollection.HasSynced c.Namespaces,
     some c.Services.isSome, KrtCollection.HasSynced c.Services,
     some c.Secrets.isSome, KrtCollection.HasSynced c.Secrets,
     some c.ConfigMaps.isSome, KrtCollection.HasSynced c.ConfigMaps,
     some c.GatewayClasses.isSome, KrtCollection.HasSynced c.GatewayClasses,
     some c.Gateways.isSome, KrtCollection.HasSynced c.Gateways,
     some c.HTTPRoutes.isSome, KrtCollection.HasSynced c.HTTPRoutes,
     some c.GRPCRoutes.isSome, KrtCollection.HasSynced c.GRPCRoutes,
     some c.TCPRoutes.isSome, KrtCollection.HasSynced c.TCPRoutes,
     some c.TLSRoutes.isSome, KrtCollection.HasSynced c.TLSRoutes,
     some c.ReferenceGrants.isSome, KrtCollection.HasSynced c.ReferenceGrants,
     some c.BackendTLSPolicies.isSome, KrtCollection.HasSynced c.BackendTLSPolicies,
     some c.InferencePools.isSome, KrtCollection.HasSynced c.InferencePools,
     some c.WrappedPods.isSome, KrtCollection.HasSynced c.WrappedPods,
     some c.RefGrants.isSome, KrtCollection.HasSynced c.RefGrants,
     some c.Backends.isSome, KrtCollection.HasSynced c.Backends,
     some c.TrafficPolicies.isSome, KrtCollection.HasSynced c.TrafficPolicies,
     some c.DirectResponses.isSome, KrtCollection.HasSynced c.DirectResponses,
     some c.GatewayExtensions.isSome, KrtCollection.HasSynced c.GatewayExtensions]

/-! ## Sample data for the concrete instances -/

/-- A plugin whose `PolicyIR` values are numbers, equal when they are the same
number; a nil argument is equal to nothing. -/
def natIrEquals (x : Nat) (y : Option Nat) : Bool := y == some x

/-- A policy wrapper for the TrafficPolicy `default/policy-1` with the given
generation, resource version, errors, policy IR and weight. -/
def mkWrapper (gen : Int) (rv : String) (errs : List (Option GoError)) (ir : Nat)
    (w : Int) : PolicyWrapper Nat :=
  { ObjectSource := ⟨"gateway.kgateway.dev", "TrafficPolicy", "default", "policy-1"⟩
    Policy := some ⟨gen, rv, "uid-1"⟩
    Errors := errs
    PolicyIR := some ir
    TargetRefs := []
    PrecedenceWeight := w }

/-- A wrapper whose `Policy` and `PolicyIR` are both nil. -/
def nilWrapper (errs : List (Option GoError)) : PolicyWrapper Nat :=
  { ObjectSource := ⟨"gateway.kgateway.dev", "TrafficPolicy", "default", "policy-1"⟩
    Policy := none
    Errors := errs
    PolicyIR := none
    TargetRefs := []
    PrecedenceWeight := 0 }

/-- The collections as `NewAgwCollections` and `InitPlugins` leave them (none is
nil), every one synced except `Nodes`, which is still syncing. -/
def allButNodesSynced : AgwCollections :=
  { Namespaces := some ⟨true⟩, Nodes := some ⟨false⟩, Pods := some ⟨true⟩,
    Services := some ⟨true⟩, Secrets := some ⟨true⟩, ConfigMaps := some ⟨true⟩,
    EndpointSlices := some ⟨true⟩, GatewayClasses := some ⟨true⟩, Gateways := some ⟨true⟩,
    HTTPRoutes := some ⟨true⟩, GRPCRoutes := some ⟨true⟩, TCPRoutes := some ⟨true⟩,
    TLSRoutes := some ⟨true⟩, ReferenceGrants := some ⟨true⟩,
    BackendTLSPolicies := some ⟨true⟩, InferencePools := some ⟨true⟩,
    WrappedPods := some ⟨true⟩, RefGrants := some ⟨true⟩, Backends := some ⟨true⟩,
    TrafficPolicies := some ⟨true⟩, DirectResponses := some ⟨true⟩,
    GatewayExtensions := some ⟨true⟩,
    ControllerName := "kgateway.dev/agentgateway", SystemNamespace := "kgateway-system",
    ClusterID := "Kubernetes" }

/-! ## Specification-side vocabulary -/

/-- Two error lists agree: they have the same length and at every index the two
entries are either both nil, or both non-nil with the same `Error()` message. -/
def ErrorsAgree (xs ys : List (Option GoError)) : Prop :=
  xs.length = ys.length ∧
    ∀ i, i < xs.length →
      (xs[i]? = some none ∧ ys[i]? = some none) ∨
        ∃ x y, xs[i]? = some (some x) ∧ ys[i]? = some (some y) ∧ x.Error = y.Error

/-- What the spec asks of a validator: the result `result` of `Validate`
against the error `err` of the run. The result is nil iff the run succeeded; it
wraps `ErrInvalidXDS` iff the run ended with an exit error; any other failure of
the run gives an error with the message "envoy validate invocation failed: "
followed by the cause, which does not wrap `ErrInvalidXDS`. -/
def ValidateContract (result : Option XdsError) (err : Option RunError) : Prop :=
  (result = none ↔ err = none) ∧
    ((∃ e, result = some e ∧ e.IsErrInvalidXDS = true) ↔
      ∃ re, err = some re ∧ re.isExitError = true) ∧
    ∀ re, err = some re → re.isExitError = false →
      ∃ e, result = some e ∧
        e.Error = "envoy validate invocation failed: ".toList ++ re.Error ∧
        e.IsErrInvalidXDS = false

/-- A run that fails with the given kind of error and the text "exit status 1",
having written `stderr`, whatever the command. -/
def failingRun (isExitError : Bool) (stderr : Str) : Cmd → RunResult :=
  fun _ => { err := some ⟨isExitError, "exit status 1".toList⟩, stdout := [], stderr := stderr }

/-- The nineteen collections that `AgwCollections.HasSynced` names, in the
order of its body. -/
def namedCollections (c : AgwCollections) : List (Option KrtCollection) :=
  [c.Namespaces, c.Services, c.Secrets, c.ConfigMaps, c.GatewayClasses, c.Gateways,
   c.HTTPRoutes, c.GRPCRoutes, c.TCPRoutes, c.TLSRoutes, c.ReferenceGrants,
   c.BackendTLSPolicies, c.InferencePools, c.WrappedPods, c.RefGrants, c.Backends,
   c.TrafficPolicies, c.DirectResponses, c.GatewayExtensions]

/-- The operands of the chain `x1 != nil && x1.HasSynced() && x2 != nil && ...`
over a list of collections. -/
def guardedOperands : List (Option KrtCollection) → List (Option Bool)
  | [] => []
  | x :: xs => some x.isSome :: KrtCollection.HasSynced x :: guardedOperands xs

/-- A line kept by `extractEnvoyError`: not empty, without a line feed, and with
no white space at either end. -/
def CleanLine (e : Str) : Prop :=
  e ≠ [] ∧ Char.ofNat 10 ∉ e ∧ (∀ c, e.head? = some c → IsSpace c = false) ∧
    (∀ c, e.getLast? = some c → IsSpace c = false)

/-! ## Lemmas on `slices.EqualFunc` and the error comparison -/

theorem errorEq_iff (e1 e2 : Option GoError) :
    errorEq e1 e2 = true ↔
      (e1 = none ∧ e2 = none) ∨ ∃ x y, e1 = some x ∧ e2 = some y ∧ x.Error = y.Error := by
  cases e1 <;> cases e2 <;> simp [errorEq]

theorem errorEq_comm (e1 e2 : Option GoError) : errorEq e1 e2 = errorEq e2 e1 := by
  rw [Bool.eq_iff_iff, errorEq_iff, errorEq_iff]
  constructor
  · rintro (⟨h1, h2⟩ | ⟨x, y, h1, h2, h3⟩)
    · exact Or.inl ⟨h2, h1⟩
    · exact Or.inr ⟨y, x, h2, h1, h3.symm⟩
  · rintro (⟨h1, h2⟩ | ⟨x, y, h1, h2, h3⟩)
    · exact Or.inl ⟨h2, h1⟩
    · exact Or.inr ⟨y, x, h2, h1, h3.symm⟩

theorem EqualFunc_loop_iff {α β : Type} (eq : α → β → Bool) :
    ∀ (s1 : List α) (s2 : List β), s1.length = s2.length →
      (EqualFunc.loop eq s1 s2 = true ↔
        ∀ i, i < s1.length → ∃ x y, s1[i]? = some x ∧ s2[i]? = some y ∧ eq x y = true)
  | [], [], _ => by simp [EqualFunc.loop]
  | [], _ :: _, h => by simp at h
  | _ :: _, [], h => by simp at h
  | v1 :: r1, v2 :: r2, h => by
    have hlen : r1.length = r2.length := by simpa using h
    have ih := EqualFunc_loop_iff eq r1 r2 hlen
    constructor
    · intro hl i hi
      cases hv : eq v1 v2 with
      | false => simp [EqualFunc.loop, hv] at hl
      | true =>
        have hl2 : EqualFunc.loop eq r1 r2 = true := by simpa [EqualFunc.loop, hv] using hl
        cases i with
        | zero => exact ⟨v1, v2, by simp, by simp, hv⟩
        | succ j =>
          have hj : j < r1.length := by simpa using hi
          obtain ⟨x, y, hx, hy, hxy⟩ := ih.mp hl2 j hj
          exact ⟨x, y, by simpa using hx, by simpa using hy, hxy⟩
    · intro hall
      obtain ⟨x, y, hx, hy, hxy⟩ := hall 0 (by simp)
      have hx2 : v1 = x := by simpa using hx
      have hy2 : v2 = y := by simpa using hy
      subst hx2 hy2
      have hrest : EqualFunc.loop eq r1 r2 = true := by
        apply ih.mpr
        intro j hj
        obtain ⟨x, y, hx, hy, hxy⟩ := hall (j + 1) (by simpa using hj)
        exact ⟨x, y, by simpa using hx, by simpa using hy, hxy⟩
      simp [EqualFunc.loop, hxy, hrest]

theorem EqualFunc_iff {α β : Type} (eq : α → β → Bool) (s1 : List α) (s2 : List β) :
    EqualFunc s1 s2 eq = true ↔
      s1.length = s2.length ∧
        ∀ i, i < s1.length → ∃ x y, s1[i]? = some x ∧ s2[i]? = some y ∧ eq x y = true := by
  unfold EqualFunc
  by_cases h : s1.length = s2.length
  · simp [h, EqualFunc_loop_iff eq s1 s2 h]
  · simp [h]

theorem EqualFunc_errorEq_iff (xs ys : List (Option GoError)) :
    EqualFunc xs ys errorEq = true ↔ ErrorsAgree xs ys := by
  rw [EqualFunc_iff]
  unfold ErrorsAgree
  constructor
  · rintro ⟨hlen, hall⟩
    refine ⟨hlen, fun i hi => ?_⟩
    obtain ⟨x, y, hx, hy, hxy⟩ := hall i hi
    rcases (errorEq_iff x y).mp hxy with ⟨h1, h2⟩ | ⟨u, v, h1, h2, h3⟩
    · subst h1 h2; exact Or.inl ⟨hx, hy⟩
    · subst h1 h2; exact Or.inr ⟨u, v, hx, hy, h3⟩
  · rintro ⟨hlen, hall⟩
    refine ⟨hlen, fun i hi => ?_⟩
    rcases hall i hi with ⟨h1, h2⟩ | ⟨u, v, h1, h2, h3⟩
    · exact ⟨none, none, h1, h2, by simp [errorEq]⟩
    · exact ⟨some u, some v, h1, h2, (errorEq_iff _ _).mpr (Or.inr ⟨u, v, rfl, rfl, h3⟩)⟩

theorem ErrorsAgree.refl (xs : List (Option GoError)) : ErrorsAgree xs xs := by
  refine ⟨rfl, fun i hi => ?_⟩
  have hget : xs[i]? = some xs[i] := List.getElem?_eq_getElem hi
  cases hx : xs[i] with
  | none => left; simp [hget, hx]
  | some e => right; exact ⟨e, e, by simp [hget, hx], by simp [hget, hx], rfl⟩

theorem ErrorsAgree.symm {xs ys : List (Option GoError)} (h : ErrorsAgree xs ys) :
    ErrorsAgree ys xs := by
  obtain ⟨hlen, hall⟩ := h
  refine ⟨hlen.symm, fun i hi => ?_⟩
  rcases hall i (hlen ▸ hi) with ⟨h1, h2⟩ | ⟨u, v, h1, h2, h3⟩
  · exact Or.inl ⟨h2, h1⟩
  · exact Or.inr ⟨v, u, h2, h1, h3.symm⟩

theorem ErrorsAgree.trans {xs ys zs : List (Option GoError)} (h1 : ErrorsAgree xs ys)
    (h2 : ErrorsAgree ys zs) : ErrorsAgree xs zs := by
  obtain ⟨hlen1, hall1⟩ := h1
  obtain ⟨hlen2, hall2⟩ := h2
  refine ⟨hlen1.trans hlen2, fun i hi => ?_⟩
  rcases hall1 i hi with ⟨a1, a2⟩ | ⟨u, v, a1, a2, a3⟩
  · rcases hall2 i (hlen1 ▸ hi) with ⟨b1, b2⟩ | ⟨u2, v2, b1, b2, b3⟩
    · exact Or.inl ⟨a1, b2⟩
    · rw [a2] at b1; simp at b1
  · rcases hall2 i (hlen1 ▸ hi) with ⟨b1, b2⟩ | ⟨u2, v2, b1, b2, b3⟩
    · rw [a2] at b1; simp at b1
    · rw [a2] at b1
      have huv : v = u2 := by simpa using b1
      subst huv
      exact Or.inr ⟨u, v2, a1, b2, a3.trans b3⟩

/-! ## Lemmas on `versionEquals` and `PolicyWrapper.Equals` -/

theorem versionEquals_some (a b : Object) :
    versionEquals (some a) (some b) =
      some (decide (a.UID = b.UID ∧
        (if a.Generation ≠ 0 ∧ b.Generation ≠ 0 then a.Generation = b.Generation
          else a.ResourceVersion = b.ResourceVersion))) := by
  unfold versionEquals
  have hbool : ∀ x y : Bool, (x = true ↔ y = true) → some x = some y := by
    intro x y h; cases x <;> cases y <;> simp_all
  apply hbool
  by_cases ha : a.Generation = 0 <;> by_cases hb : b.Generation = 0 <;>
    simp [ha, hb, and_comm]

/-- The result of `PolicyWrapper.Equals` is true exactly when every test of its
body passes, without any assumption on the arguments. -/
theorem Equals_eq_true_iff {P : Type} (irEquals : P → Option P → Bool)
    (a b : PolicyWrapper P) :
    PolicyWrapper.Equals irEquals a b = some true ↔
      a.ObjectSource = b.ObjectSource ∧ ErrorsAgree a.Errors b.Errors ∧
        versionEquals a.Policy b.Policy = some true ∧
        (∃ ia, a.PolicyIR = some ia ∧ irEquals ia b.PolicyIR = true) ∧
        a.PrecedenceWeight = b.PrecedenceWeight := by
  rw [← EqualFunc_errorEq_iff]
  unfold PolicyWrapper.Equals
  by_cases hos : a.ObjectSource = b.ObjectSource
  · cases hef : EqualFunc a.Errors b.Errors errorEq with
    | false => simp [hos]
    | true =>
      cases hv : versionEquals a.Policy b.Policy with
      | none => simp [hos]
      | some r =>
        cases r with
        | false => simp [hos]
        | true =>
          cases hir : a.PolicyIR with
          | none => simp [hos]
          | some ia =>
            cases hie : irEquals ia b.PolicyIR <;> simp [hos, hie]
  · simp [hos]

/-- With non-nil `Policy` and `PolicyIR` on the receiver and a non-nil `Policy`
on the argument, `PolicyWrapper.Equals` returns (no nil dereference). -/
theorem Equals_isSome {P : Type} (irEquals : P → Option P → Bool)
    (a b : PolicyWrapper P) (pa pb : Object) (ia : P)
    (ha : a.Policy = some pa) (hb : b.Policy = some pb) (hia : a.PolicyIR = some ia) :
    ∃ r, PolicyWrapper.Equals irEquals a b = some r := by
  obtain ⟨r, hr⟩ : ∃ r, versionEquals (some pa) (some pb) = some r :=
    ⟨_, versionEquals_some pa pb⟩
  unfold PolicyWrapper.Equals
  rw [ha, hb, hia, hr]
  by_cases hos : a.ObjectSource = b.ObjectSource
  · cases hef : EqualFunc a.Errors b.Errors errorEq with
    | false => simp [hos]
    | true =>
      cases r with
      | false => simp [hos]
      | true => cases hie : irEquals ia b.PolicyIR <;> simp [hos, hie]
  · simp [hos]

theorem versionEquals_true_iff (a b : Object) :
    versionEquals (some a) (some b) = some true ↔
      a.UID = b.UID ∧
        (if a.Generation ≠ 0 ∧ b.Generation ≠ 0 then a.Generation = b.Generation
          else a.ResourceVersion = b.ResourceVersion) := by
  rw [versionEquals_some]
  simp

theorem versionEquals_comm (a b : Object) :
    versionEquals (some a) (some b) = versionEquals (some b) (some a) := by
  rw [versionEquals_some, versionEquals_some]
  congr 1
  by_cases ha : a.Generation = 0 <;> by_cases hb : b.Generation = 0 <;>
    simp [ha, hb, eq_comm]

theorem versionEquals_refl (a : Object) : versionEquals (some a) (some a) = some true := by
  rw [versionEquals_true_iff]
  simp

/-- The relation `versionEquals` composes when the three generations are all
non-zero, or when at most one of them is non-zero. -/
theorem versionEquals_trans (a b c : Object)
    (hgen : (a.Generation ≠ 0 ∧ b.Generation ≠ 0 ∧ c.Generation ≠ 0) ∨
      (a.Generation = 0 ∧ b.Generation = 0) ∨ (a.Generation = 0 ∧ c.Generation = 0) ∨
      (b.Generation = 0 ∧ c.Generation = 0))
    (hab : versionEquals (some a) (some b) = some true)
    (hbc : versionEquals (some b) (some c) = some true) :
    versionEquals (some a) (some c) = some true := by
  rw [versionEquals_true_iff] at hab hbc ⊢
  obtain ⟨hu1, hv1⟩ := hab
  obtain ⟨hu2, hv2⟩ := hbc
  refine ⟨hu1.trans hu2, ?_⟩
  by_cases ha : a.Generation = 0 <;> by_cases hb : b.Generation = 0 <;>
    by_cases hc : c.Generation = 0 <;> simp_all

/-! ## Policy equality: the claims -/

/-- C1: for two PolicyWrappers with non-nil Policy and PolicyIR, `Equals` returns,
and it returns true if and only if the ObjectSources are equal, the Errors lists
agree (same length, at every index both nil or both non-nil with the same
message), `versionEquals` of the two Policies is true, the receiver's
`PolicyIR.Equals` accepts the other PolicyIR, and the PrecedenceWeights are
equal. -/
theorem policyWrapper_equals_iff {P : Type} (irEquals : P → Option P → Bool)
    (a b : PolicyWrapper P) (pa pb : Object) (ia ib : P)
    (ha : a.Policy = some pa) (hb : b.Policy = some pb)
    (hia : a.PolicyIR = some ia) (hib : b.PolicyIR = some ib) :
    (∃ r, PolicyWrapper.Equals irEquals a b = some r) ∧
      (PolicyWrapper.Equals irEquals a b = some true ↔
        a.ObjectSource = b.ObjectSource ∧ ErrorsAgree a.Errors b.Errors ∧
          versionEquals (some pa) (some pb) = some true ∧
          irEquals ia (some ib) = true ∧
          a.PrecedenceWeight = b.PrecedenceWeight) := by
  refine ⟨Equals_isSome irEquals a b pa pb ia ha hb hia, ?_⟩
  rw [Equals_eq_true_iff, ha, hb, hia, hib]
  constructor
  · rintro ⟨h1, h2, h3, ⟨x, hx, h4⟩, h5⟩
    have hx2 : ia = x := by simpa using hx
    subst hx2
    exact ⟨h1, h2, h3, h4, h5⟩
  · rintro ⟨h1, h2, h3, h4, h5⟩
    exact ⟨h1, h2, h3, ⟨ia, rfl, h4⟩, h5⟩

/-- C1 at a concrete pair: generation 3 on both sides, one nil error and one
error with the message "bad" under two different identities. -/
theorem policyWrapper_equals_iff_witness :
    (∃ r, PolicyWrapper.Equals natIrEquals
        (mkWrapper 3 "10" [none, some ⟨1, "bad"⟩] 5 0)
        (mkWrapper 3 "11" [none, some ⟨2, "bad"⟩] 5 0) = some r) ∧
      (PolicyWrapper.Equals natIrEquals
          (mkWrapper 3 "10" [none, some ⟨1, "bad"⟩] 5 0)
          (mkWrapper 3 "11" [none, some ⟨2, "bad"⟩] 5 0) = some true ↔
        (mkWrapper 3 "10" [none, some ⟨1, "bad"⟩] 5 0).ObjectSource =
            (mkWrapper 3 "11" [none, some ⟨2, "bad"⟩] 5 0).ObjectSource ∧
          ErrorsAgree [none, some ⟨1, "bad"⟩] [none, some ⟨2, "bad"⟩] ∧
          versionEquals (some ⟨3, "10", "uid-1"⟩) (some ⟨3, "11", "uid-1"⟩) = some true ∧
          natIrEquals 5 (some 5) = true ∧
          (0 : Int) = 0) :=
  policyWrapper_equals_iff natIrEquals
    (mkWrapper 3 "10" [none, some ⟨1, "bad"⟩] 5 0)
    (mkWrapper 3 "11" [none, some ⟨2, "bad"⟩] 5 0)
    ⟨3, "10", "uid-1"⟩ ⟨3, "11", "uid-1"⟩ 5 5 rfl rfl rfl rfl

/-- C2: for two (non-nil) objects `versionEquals` returns, and it returns true
exactly when the UIDs are equal and, if both generations are non-zero, the
generations are equal, otherwise the resourceVersions are equal; two objects
with different UIDs are never version-equal. -/
theorem versionEquals_iff (a b : Object) :
    ∃ r, versionEquals (some a) (some b) = some r ∧
      (r = true ↔
        a.UID = b.UID ∧
          (if a.Generation ≠ 0 ∧ b.Generation ≠ 0 then a.Generation = b.Generation
            else a.ResourceVersion = b.ResourceVersion)) ∧
      (a.UID ≠ b.UID → r = false) := by
  refine ⟨_, versionEquals_some a b, by simp, ?_⟩
  intro h
  simp [h]

/-- C2 at a concrete pair: same generation 4, different UIDs. -/
theorem versionEquals_iff_witness :
    ∃ r, versionEquals (some ⟨4, "9", "uid-1"⟩) (some ⟨4, "9", "uid-2"⟩) = some r ∧
      (r = true ↔
        ("uid-1" : String) = "uid-2" ∧
          (if (4 : Int) ≠ 0 ∧ (4 : Int) ≠ 0 then (4 : Int) = 4
            else ("9" : String) = "9")) ∧
      (("uid-1" : String) ≠ "uid-2" → r = false) :=
  versionEquals_iff ⟨4, "9", "uid-1"⟩ ⟨4, "9", "uid-2"⟩

/-- C3 as stated fails: with a plugin equality that is an equivalence relation,
`a` (generation 1), `b` (generation 0) and `c` (generation 2), all three with
resource version "7" and the same UID, have `a.Equals(b)` and `b.Equals(c)` true
(a zero generation sends both comparisons to the resource version) but
`a.Equals(c)` false (both generations are non-zero and differ). -/
theorem policyWrapper_equals_not_transitive :
    (∀ x : Nat, natIrEquals x (some x) = true) ∧
      (∀ x y : Nat, natIrEquals x (some y) = natIrEquals y (some x)) ∧
      (∀ x y z : Nat, natIrEquals x (some y) = true → natIrEquals y (some z) = true →
        natIrEquals x (some z) = true) ∧
      PolicyWrapper.Equals natIrEquals (mkWrapper 1 "7" [] 5 0) (mkWrapper 0 "7" [] 5 0)
        = some true ∧
      PolicyWrapper.Equals natIrEquals (mkWrapper 0 "7" [] 5 0) (mkWrapper 2 "7" [] 5 0)
        = some true ∧
      PolicyWrapper.Equals natIrEquals (mkWrapper 1 "7" [] 5 0) (mkWrapper 2 "7" [] 5 0)
        = some false := by
  refine ⟨?_, ?_, ?_, by decide, by decide, by decide⟩
  · intro x; simp [natIrEquals]
  · intro x y; simp [natIrEquals, eq_comm]
  · intro x y z; simp only [natIrEquals, beq_iff_eq, Option.some.injEq]
    intro h1 h2; exact h2.trans h1

/-- C3, amended: `PolicyWrapper.Equals` is transitive on wrappers with non-nil
Policy and PolicyIR and a transitive `PolicyIR.Equals`, provided the generations
of the three Policies are all non-zero or at most one of them is non-zero. -/
theorem policyWrapper_equals_trans {P : Type} (irEquals : P → Option P → Bool)
    (a b c : PolicyWrapper P) (pa pb pc : Object) (ia ib ic : P)
    (ha : a.Policy = some pa) (hb : b.Policy = some pb) (hc : c.Policy = some pc)
    (hia : a.PolicyIR = some ia) (hib : b.PolicyIR = some ib) (hic : c.PolicyIR = some ic)
    (htrans : ∀ x y z, irEquals x (some y) = true → irEquals y (some z) = true →
      irEquals x (some z) = true)
    (hgen : (pa.Generation ≠ 0 ∧ pb.Generation ≠ 0 ∧ pc.Generation ≠ 0) ∨
      (pa.Generation = 0 ∧ pb.Generation = 0) ∨ (pa.Generation = 0 ∧ pc.Generation = 0) ∨
      (pb.Generation = 0 ∧ pc.Generation = 0))
    (hab : PolicyWrapper.Equals irEquals a b = some true)
    (hbc : PolicyWrapper.Equals irEquals b c = some true) :
    PolicyWrapper.Equals irEquals a c = some true := by
  rw [Equals_eq_true_iff] at hab hbc ⊢
  rw [ha, hb, hia, hib] at hab
  rw [hb, hc, hib, hic] at hbc
  rw [ha, hc, hia, hic]
  obtain ⟨a1, a2, a3, ⟨x, hx, a4⟩, a5⟩ := hab
  obtain ⟨b1, b2, b3, ⟨y, hy, b4⟩, b5⟩ := hbc
  have hx2 : ia = x := by simpa using hx
  have hy2 : ib = y := by simpa using hy
  subst hx2 hy2
  exact ⟨a1.trans b1, a2.trans b2, versionEquals_trans pa pb pc hgen a3 b3,
    ⟨ia, rfl, htrans ia ib ic a4 b4⟩, a5.trans b5⟩

/-- C3, amended, at three wrappers of generation 2 whose resource versions all
differ. -/
theorem policyWrapper_equals_trans_witness :
    PolicyWrapper.Equals natIrEquals (mkWrapper 2 "7" [none] 5 1) (mkWrapper 2 "8" [none] 5 1)
        = some true ∧
      PolicyWrapper.Equals natIrEquals (mkWrapper 2 "8" [none] 5 1) (mkWrapper 2 "9" [none] 5 1)
        = some true ∧
      PolicyWrapper.Equals natIrEquals (mkWrapper 2 "7" [none] 5 1) (mkWrapper 2 "9" [none] 5 1)
        = some true :=
  ⟨by decide, by decide,
    policyWrapper_equals_trans natIrEquals
      (mkWrapper 2 "7" [none] 5 1) (mkWrapper 2 "8" [none] 5 1) (mkWrapper 2 "9" [none] 5 1)
      ⟨2, "7", "uid-1"⟩ ⟨2, "8", "uid-1"⟩ ⟨2, "9", "uid-1"⟩ 5 5 5 rfl rfl rfl rfl rfl rfl
      (by
        intro x y z
        simp only [natIrEquals, beq_iff_eq, Option.some.injEq]
        intro h1 h2; exact h2.trans h1)
      (Or.inl ⟨by decide, by decide, by decide⟩) (by decide) (by decide)⟩

/-- C4: `PolicyWrapper.Equals` is symmetric on wrappers with non-nil Policy and
PolicyIR whose `PolicyIR.Equals` is symmetric: `a.Equals(b)` and `b.Equals(a)`
return the same value. -/
theorem policyWrapper_equals_symm {P : Type} (irEquals : P → Option P → Bool)
    (a b : PolicyWrapper P) (pa pb : Object) (ia ib : P)
    (ha : a.Policy = some pa) (hb : b.Policy = some pb)
    (hia : a.PolicyIR = some ia) (hib : b.PolicyIR = some ib)
    (hsymm : ∀ x y, irEquals x (some y) = irEquals y (some x)) :
    PolicyWrapper.Equals irEquals a b = PolicyWrapper.Equals irEquals b a := by
  obtain ⟨r1, h1⟩ := Equals_isSome irEquals a b pa pb ia ha hb hia
  obtain ⟨r2, h2⟩ := Equals_isSome irEquals b a pb pa ib hb ha hib
  have key : PolicyWrapper.Equals irEquals a b = some true ↔
      PolicyWrapper.Equals irEquals b a = some true := by
    rw [Equals_eq_true_iff, Equals_eq_true_iff, ha, hb, hia, hib, versionEquals_comm pa pb]
    constructor
    · rintro ⟨c1, c2, c3, ⟨x, hx, c4⟩, c5⟩
      have hx2 : ia = x := by simpa using hx
      subst hx2
      exact ⟨c1.symm, c2.symm, c3, ⟨ib, rfl, by rw [hsymm]; exact c4⟩, c5.symm⟩
    · rintro ⟨c1, c2, c3, ⟨x, hx, c4⟩, c5⟩
      have hx2 : ib = x := by simpa using hx
      subst hx2
      exact ⟨c1.symm, c2.symm, c3, ⟨ia, rfl, by rw [hsymm]; exact c4⟩, c5.symm⟩
  rw [h1, h2] at key ⊢
  cases r1 <;> cases r2 <;> simp_all

/-- C4 at a concrete pair that differs in the weight: both directions give
false. -/
theorem policyWrapper_equals_symm_witness :
    PolicyWrapper.Equals natIrEquals (mkWrapper 0 "7" [] 5 1) (mkWrapper 3 "7" [] 5 2) =
        PolicyWrapper.Equals natIrEquals (mkWrapper 3 "7" [] 5 2) (mkWrapper 0 "7" [] 5 1) ∧
      PolicyWrapper.Equals natIrEquals (mkWrapper 0 "7" [] 5 1) (mkWrapper 3 "7" [] 5 2) =
        some false :=
  ⟨policyWrapper_equals_symm natIrEquals (mkWrapper 0 "7" [] 5 1) (mkWrapper 3 "7" [] 5 2)
      ⟨0, "7", "uid-1"⟩ ⟨3, "7", "uid-1"⟩ 5 5 rfl rfl rfl rfl
      (by intro x y; simp [natIrEquals, eq_comm]),
    by decide⟩

/-- C5: `PolicyWrapper.Equals` is reflexive: a wrapper with non-nil Policy and
PolicyIR whose `PolicyIR.Equals` is reflexive is equal to itself, whatever its
Errors (nil entries included), generation, resourceVersion and UID. -/
theorem policyWrapper_equals_refl {P : Type} (irEquals : P → Option P → Bool)
    (w : PolicyWrapper P) (p : Object) (i : P)
    (hp : w.Policy = some p) (hi : w.PolicyIR = some i)
    (hrefl : ∀ x, irEquals x (some x) = true) :
    PolicyWrapper.Equals irEquals w w = some true := by
  rw [Equals_eq_true_iff, hp, hi]
  exact ⟨rfl, ErrorsAgree.refl _, versionEquals_refl p, ⟨i, rfl, hrefl i⟩, rfl⟩

/-- C5 at a wrapper of generation 0 with a nil error and an error whose message
is empty. -/
theorem policyWrapper_equals_refl_witness :
    PolicyWrapper.Equals natIrEquals (mkWrapper 0 "" [none, some ⟨1, ""⟩] 5 (-3))
      (mkWrapper 0 "" [none, some ⟨1, ""⟩] 5 (-3)) = some true :=
  policyWrapper_equals_refl natIrEquals (mkWrapper 0 "" [none, some ⟨1, ""⟩] 5 (-3))
    ⟨0, "", "uid-1"⟩ 5 rfl rfl (by intro x; simp [natIrEquals])

/-- C6: when the Errors lists of two wrappers differ in nil-ness at some index
(one entry nil, the other a non-nil error, whatever its message), `Equals`
returns false, whatever the other fields are, a nil Policy or PolicyIR
included. -/
theorem policyWrapper_equals_nil_mismatch {P : Type} (irEquals : P → Option P → Bool)
    (a b : PolicyWrapper P) (i : Nat) (e : GoError)
    (h : (a.Errors[i]? = some none ∧ b.Errors[i]? = some (some e)) ∨
      (a.Errors[i]? = some (some e) ∧ b.Errors[i]? = some none)) :
    PolicyWrapper.Equals irEquals a b = some false := by
  have hne : EqualFunc a.Errors b.Errors errorEq = false := by
    rw [← Bool.not_eq_true, EqualFunc_errorEq_iff]
    rintro ⟨hlen, hall⟩
    have hi : i < a.Errors.length := by
      rcases h with ⟨h1, _⟩ | ⟨h1, _⟩ <;>
        exact (List.getElem?_eq_some_iff.mp h1).1
    rcases hall i hi with ⟨c1, c2⟩ | ⟨x, y, c1, c2, _⟩ <;>
      rcases h with ⟨h1, h2⟩ | ⟨h1, h2⟩ <;> simp_all
  unfold PolicyWrapper.Equals
  by_cases hos : a.ObjectSource = b.ObjectSource <;> simp [hos, hne]

/-- C6 at two wrappers with nil Policy and PolicyIR: a nil entry against an
error whose message is the empty string. -/
theorem policyWrapper_equals_nil_mismatch_witness :
    PolicyWrapper.Equals natIrEquals (nilWrapper [none]) (nilWrapper [some ⟨1, ""⟩])
      = some false :=
  policyWrapper_equals_nil_mismatch natIrEquals (nilWrapper [none])
    (nilWrapper [some ⟨1, ""⟩]) 0 ⟨1, ""⟩ (Or.inl ⟨rfl, rfl⟩)

/-! ## Lemmas on the string functions -/

theorem Contains_iff_within (sub : Str) : ∀ s : Str, Contains s sub = true ↔ sub <:+: s
  | [] => by
    cases sub <;> simp [Contains, HasPrefix, List.isPrefixOf]
  | c :: s => by
    rw [Contains, Bool.or_eq_true, Contains_iff_within sub s, List.infix_cons_iff]
    simp [HasPrefix]

/-- A list that starts with an element rejected by `p` and occurs inside `s`
still occurs inside `s` once the leading elements accepted by `p` are dropped. -/
theorem infix_dropWhile {α : Type} (p : α → Bool) (x : α) (m : List α) (hx : p x = false) :
    ∀ s : List α, x :: m <:+: s → x :: m <:+: s.dropWhile p
  | [], h => by simp at h
  | c :: s, h => by
    cases hc : p c with
    | false => simpa [List.dropWhile, hc] using h
    | true =>
      rw [List.dropWhile_cons_of_pos hc]
      apply infix_dropWhile p x m hx s
      rcases List.infix_cons_iff.mp h with hp | hi
      · have hxc : x = c := (List.cons_prefix_cons.mp hp).1
        rw [hxc, hc] at hx
        exact absurd hx (by simp)
      · exact hi

theorem TrimSpace_within (s : Str) : TrimSpace s <:+: s := by
  unfold TrimSpace
  have h1 : (s.dropWhile IsSpace).reverse.dropWhile IsSpace <:+: (s.dropWhile IsSpace).reverse :=
    (List.dropWhile_suffix IsSpace).isInfix
  have h2 := List.reverse_infix.mpr h1
  rw [List.reverse_reverse] at h2
  exact h2.trans (List.dropWhile_suffix IsSpace).isInfix

/-- A text that begins and ends with a character that is not white space occurs
in the trimmed line exactly when it occurs in the line. -/
theorem infix_TrimSpace_iff (x y : Char) (m : Str) (hx : IsSpace x = false)
    (hy : IsSpace y = false) (s : Str) :
    x :: (m ++ [y]) <:+: TrimSpace s ↔ x :: (m ++ [y]) <:+: s := by
  constructor
  · intro h
    exact h.trans (TrimSpace_within s)
  · intro h
    have h1 := infix_dropWhile IsSpace x (m ++ [y]) hx s h
    have h2 : y :: (m.reverse ++ [x]) <:+: (s.dropWhile IsSpace).reverse := by
      have := List.reverse_infix.mpr h1
      simpa using this
    have h3 := infix_dropWhile IsSpace y (m.reverse ++ [x]) hy _ h2
    have h4 := List.reverse_infix.mpr h3
    simpa [TrimSpace] using h4

/-- Trimming a line does not change whether it contains the marker, which
starts with `e` and ends with `n`. -/
theorem Contains_TrimSpace_marker (s : Str) :
    Contains (TrimSpace s) marker = Contains s marker := by
  rw [Bool.eq_iff_iff, Contains_iff_within, Contains_iff_within]
  exact infix_TrimSpace_iff 'e' 'n' "rror initializing configuratio".toList
    (by decide) (by decide) s

/-- A list with an element accepted by `f` splits at the first such element. -/
theorem exists_first_split {α : Type} (f : α → Bool) :
    ∀ (s : List α), (∃ v ∈ s, f v = true) →
      ∃ pre l post, s = pre ++ l :: post ∧ (∀ v ∈ pre, f v = false) ∧ f l = true
  | [], h => by simp at h
  | v :: rest, h => by
    cases hv : f v with
    | true => exact ⟨[], v, rest, rfl, by simp, hv⟩
    | false =>
      have h2 : ∃ w ∈ rest, f w = true := by
        obtain ⟨w, hw, hfw⟩ := h
        rcases List.mem_cons.mp hw with rfl | hw2
        · rw [hv] at hfw; exact absurd hfw (by simp)
        · exact ⟨w, hw2, hfw⟩
      obtain ⟨pre, l, post, e1, e2, e3⟩ := exists_first_split f rest h2
      refine ⟨v :: pre, l, post, by rw [e1]; rfl, ?_, e3⟩
      intro u hu
      rcases List.mem_cons.mp hu with rfl | hu2
      · exact hv
      · exact e2 u hu2

theorem IndexFunc_loop_append {α : Type} (f : α → Bool) (l : α) (post : List α)
    (hl : f l = true) :
    ∀ (pre : List α) (k : Nat), (∀ v ∈ pre, f v = false) →
      IndexFunc.loop f (pre ++ l :: post) k = ((k + pre.length : Nat) : Int)
  | [], k, _ => by simp [IndexFunc.loop, hl]
  | v :: pre, k, h => by
    have hv : f v = false := h v (by simp)
    have ih := IndexFunc_loop_append f l post hl pre (k + 1)
      (fun u hu => h u (List.mem_cons_of_mem v hu))
    have hstep : IndexFunc.loop f (v :: (pre ++ l :: post)) k =
        IndexFunc.loop f (pre ++ l :: post) (k + 1) := by
      simp [IndexFunc.loop, hv]
    rw [List.cons_append, hstep, ih, List.length_cons]
    congr 1
    omega

theorem IndexFunc_loop_none {α : Type} (f : α → Bool) :
    ∀ (s : List α) (k : Nat), (∀ v ∈ s, f v = false) → IndexFunc.loop f s k = -1
  | [], _, _ => rfl
  | v :: rest, k, h => by
    have hv : f v = false := h v (by simp)
    simp only [IndexFunc.loop, hv, Bool.false_eq_true, if_false]
    exact IndexFunc_loop_none f rest (k + 1) (fun u hu => h u (List.mem_cons_of_mem v hu))

theorem extractEnvoyError_loop_eq :
    ∀ (rest acc : List Str), extractEnvoyError.loop rest acc =
      acc ++ (rest.map TrimSpace).filter (fun t => t != [])
  | [], acc => by simp [extractEnvoyError.loop]
  | line :: rest, acc => by
    cases h : (TrimSpace line != []) with
    | true =>
      simp only [extractEnvoyError.loop, h, if_true, List.map_cons, List.filter_cons]
      rw [extractEnvoyError_loop_eq rest]
      simp
    | false =>
      simp only [extractEnvoyError.loop, h, Bool.false_eq_true, if_false, List.map_cons,
        List.filter_cons]
      rw [extractEnvoyError_loop_eq rest]

/-- What `extractEnvoyError` returns once the lines are cut at the first marker
line. -/
theorem extractEnvoyError_of_split (stderr : Str) (pre post : List Str) (l : Str)
    (hs : Split stderr (Char.ofNat 10) = pre ++ l :: post)
    (hpre : ∀ v ∈ pre, Contains v marker = false) (hl : Contains l marker = true) :
    extractEnvoyError stderr =
      Join (((l :: post).map TrimSpace).filter (fun t => t != [])) [' '] := by
  have hidx : IndexFunc (pre ++ l :: post) (fun line => Contains (TrimSpace line) marker)
      = (pre.length : Int) := by
    have hfun : (fun line => Contains (TrimSpace line) marker) = fun line => Contains line marker :=
      funext Contains_TrimSpace_marker
    rw [hfun]
    unfold IndexFunc
    rw [IndexFunc_loop_append (fun line => Contains line marker) l post hl pre 0 hpre]
    simp
  unfold extractEnvoyError
  simp only [hs, hidx]
  have hne : ((pre.length : Int) == -1) = false := by
    rw [beq_eq_false_iff_ne]; omega
  simp only [hne, Bool.false_eq_true, if_false, Int.toNat_ofNat, List.drop_left,
    extractEnvoyError_loop_eq, List.nil_append]

theorem Split_ne_nil (sep : Char) : ∀ s : Str, Split s sep ≠ []
  | [] => by simp [Split]
  | c :: s => by
    unfold Split
    split
    · simp
    · split <;> simp

theorem Split_of_not_mem (sep : Char) : ∀ a : Str, sep ∉ a → Split a sep = [a]
  | [], _ => rfl
  | c :: a, h => by
    have hc : c ≠ sep := fun e => h (by simp [e])
    have ha : sep ∉ a := fun e => h (List.mem_cons_of_mem c e)
    simp [Split, hc, Split_of_not_mem sep a ha]

theorem Split_append_sep (sep : Char) (rest : Str) :
    ∀ a : Str, sep ∉ a → Split (a ++ sep :: rest) sep = a :: Split rest sep
  | [], _ => by simp [Split]
  | c :: a, h => by
    have hc : c ≠ sep := fun e => h (by simp [e])
    have ha : sep ∉ a := fun e => h (List.mem_cons_of_mem c e)
    simp [Split, hc, Split_append_sep sep rest a ha]

/-- Splitting what `Join` builds from lines without the separator gives the
lines back. -/
theorem Split_Join (sep : Char) :
    ∀ ls : List Str, ls ≠ [] → (∀ l ∈ ls, sep ∉ l) → Split (Join ls [sep]) sep = ls
  | [], h, _ => absurd rfl h
  | [a], _, h => by
    simpa [Join] using Split_of_not_mem sep a (h a (by simp))
  | a :: b :: rest, _, h => by
    have ha : sep ∉ a := h a (by simp)
    have ih := Split_Join sep (b :: rest) (by simp)
      (fun l hl => h l (List.mem_cons_of_mem a hl))
    have hj : Join (a :: b :: rest) [sep] = a ++ sep :: Join (b :: rest) [sep] := by
      simp [Join]
    rw [hj, Split_append_sep sep _ a ha, ih]

theorem extractEnvoyError_nil : extractEnvoyError [] = [] := by decide

theorem errorfWrap_message (x : Str) :
    (ErrorfWrap .ErrInvalidXDS x).Error = "invalid xds configuration: ".toList ++ x := by
  have h : "invalid xds configuration".toList ++ ": ".toList
      = "invalid xds configuration: ".toList := by decide
  simp only [ErrorfWrap, XdsError.Error]
  rw [h]

/-! ## The validator: the claims -/

/-- C7: when some line of stderr contains "error initializing configuration",
`extractEnvoyError` returns the lines from the first such line to the end, each
trimmed, the blank ones dropped, in their order, joined by single spaces; the
lines before the first marker line play no part in the result. -/
theorem extractEnvoyError_from_first_marker (stderr : Str)
    (h : ∃ line ∈ Split stderr (Char.ofNat 10), Contains line marker = true) :
    ∃ pre l post, Split stderr (Char.ofNat 10) = pre ++ l :: post ∧
      (∀ v ∈ pre, Contains v marker = false) ∧ Contains l marker = true ∧
      extractEnvoyError stderr =
        Join (((l :: post).map TrimSpace).filter (fun t => t != [])) [' '] := by
  obtain ⟨pre, l, post, e1, e2, e3⟩ :=
    exists_first_split (fun line => Contains line marker) _ h
  exact ⟨pre, l, post, e1, e2, e3, extractEnvoyError_of_split stderr pre post l e1 e2 e3⟩

/-- C7 at a stderr with a pull line, an indented marker line, a blank line and a
detail line ending in a carriage return. -/
theorem extractEnvoyError_from_first_marker_witness :
    ∃ pre l post,
      Split "Pulling\n  error initializing configuration: x\n\n d1\r".toList (Char.ofNat 10)
        = pre ++ l :: post ∧
      (∀ v ∈ pre, Contains v marker = false) ∧ Contains l marker = true ∧
      extractEnvoyError "Pulling\n  error initializing configuration: x\n\n d1\r".toList =
        Join (((l :: post).map TrimSpace).filter (fun t => t != [])) [' '] :=
  extractEnvoyError_from_first_marker
    "Pulling\n  error initializing configuration: x\n\n d1\r".toList
    ⟨"  error initializing configuration: x".toList, by decide, by decide⟩

/-- C8 as stated fails: after the pull line "Pulling", the marker line and the
detail lines " a" and "b" give the trimmed lines joined by single spaces, which
is not the three lines as they stand joined by single spaces (the detail line
" a" has lost its leading space). -/
theorem extractEnvoyError_three_lines_not_verbatim :
    Contains "Pulling".toList marker = false ∧
      Contains "error initializing configuration".toList marker = true ∧
      extractEnvoyError
          (Join ["Pulling".toList, "error initializing configuration".toList, " a".toList,
            "b".toList] [Char.ofNat 10])
        = "error initializing configuration a b".toList ∧
      extractEnvoyError
          (Join ["Pulling".toList, "error initializing configuration".toList, " a".toList,
            "b".toList] [Char.ofNat 10])
        ≠ "error initializing configuration".toList ++ [' '] ++ " a".toList ++ [' '] ++
            "b".toList := by
  decide

/-- C8, amended: for a stderr made of pull lines without the marker, a line with
the marker and two detail lines, `extractEnvoyError` returns those three lines,
each trimmed of surrounding white space and dropped when blank, joined by single
spaces; when the three lines carry no surrounding white space and the detail
lines are not blank, that is markerLine + " " + detail1 + " " + detail2. -/
theorem extractEnvoyError_three_lines (noise : List Str) (m d1 d2 : Str)
    (hnoise : ∀ n ∈ noise, Contains n marker = false)
    (hnl : ∀ l ∈ noise ++ [m, d1, d2], Char.ofNat 10 ∉ l)
    (hm : Contains m marker = true) :
    extractEnvoyError (Join (noise ++ [m, d1, d2]) [Char.ofNat 10]) =
        Join (([m, d1, d2].map TrimSpace).filter (fun t => t != [])) [' '] ∧
      (TrimSpace m = m → TrimSpace d1 = d1 → TrimSpace d2 = d2 → d1 ≠ [] → d2 ≠ [] →
        extractEnvoyError (Join (noise ++ [m, d1, d2]) [Char.ofNat 10]) =
          m ++ [' '] ++ d1 ++ [' '] ++ d2) := by
  have hsplit : Split (Join (noise ++ [m, d1, d2]) [Char.ofNat 10]) (Char.ofNat 10)
      = noise ++ m :: [d1, d2] :=
    Split_Join (Char.ofNat 10) (noise ++ [m, d1, d2]) (by simp) hnl
  have hmain := extractEnvoyError_of_split _ noise [d1, d2] m hsplit hnoise hm
  refine ⟨hmain, ?_⟩
  intro t1 t2 t3 n2 n3
  have n1 : m ≠ [] := by
    intro e
    rw [e] at hm
    exact absurd hm (by decide)
  rw [hmain]
  simp [t1, t2, t3, n1, n2, n3, Join]

/-- C8, amended, at two pull lines, a marker line and two detail lines. -/
theorem extractEnvoyError_three_lines_witness :
    extractEnvoyError
        (Join (["Unable to find image".toList, "Pulling".toList] ++
          ["error initializing configuration: x".toList, "\ty".toList, "z".toList])
          [Char.ofNat 10]) =
      Join ((["error initializing configuration: x".toList, "\ty".toList,
        "z".toList].map TrimSpace).filter (fun t => t != [])) [' '] ∧
      (TrimSpace "error initializing configuration: x".toList =
          "error initializing configuration: x".toList →
        TrimSpace "\ty".toList = "\ty".toList → TrimSpace "z".toList = "z".toList →
        "\ty".toList ≠ [] → "z".toList ≠ [] →
        extractEnvoyError
            (Join (["Unable to find image".toList, "Pulling".toList] ++
              ["error initializing configuration: x".toList, "\ty".toList, "z".toList])
              [Char.ofNat 10]) =
          "error initializing configuration: x".toList ++ [' '] ++ "\ty".toList ++ [' '] ++
            "z".toList) :=
  extractEnvoyError_three_lines ["Unable to find image".toList, "Pulling".toList]
    "error initializing configuration: x".toList "\ty".toList "z".toList
    (by decide) (by decide) (by decide)

/-- C9: for both `binaryValidator.Validate` and `dockerValidator.Validate` and
every outcome of the run: the result is nil iff the run succeeded; it wraps
`ErrInvalidXDS` iff the run ended with an exit error; and any other failure of
the run gives an error with the message "envoy validate invocation failed: "
followed by the cause, which does not wrap `ErrInvalidXDS`. -/
theorem validate_contract (run : Cmd → RunResult) (b : binaryValidator)
    (d : dockerValidator) (json : Str) :
    ValidateContract (b.Validate run json) (run (b.cmd json)).err ∧
      ValidateContract (d.Validate run json) (run (d.cmd json)).err := by
  constructor
  · unfold ValidateContract binaryValidator.Validate
    generalize run (b.cmd json) = r
    rcases r with ⟨_ | re, out, se⟩
    · simp
    · cases hex : re.isExitError with
      | true => simp [hex, ErrorfWrap, XdsError.IsErrInvalidXDS]
      | false => simp [hex, XdsError.IsErrInvalidXDS, XdsError.Error]
  · unfold ValidateContract dockerValidator.Validate
    generalize run (d.cmd json) = r
    rcases r with ⟨_ | re, out, se⟩
    · simp
    · cases hex : re.isExitError with
      | true =>
        by_cases hx : extractEnvoyError (TrimSpace se) = [] <;>
          simp [hex, hx, ErrorfWrap, XdsError.IsErrInvalidXDS]
      | false => simp [hex, XdsError.IsErrInvalidXDS, XdsError.Error]

/-- C9 at a run that could not start the process: both validators report an
invocation failure, not an invalid configuration. -/
theorem validate_contract_witness :
    ValidateContract
        (binaryValidator.Validate (failingRun false []) ⟨"/usr/local/bin/envoy".toList⟩ [])
        (some ⟨false, "exit status 1".toList⟩) ∧
      ValidateContract
        (dockerValidator.Validate (failingRun false []) ⟨"envoy:latest".toList⟩ [])
        (some ⟨false, "exit status 1".toList⟩) :=
  validate_contract (failingRun false []) ⟨"/usr/local/bin/envoy".toList⟩
    ⟨"envoy:latest".toList⟩ []

/-- C10 as stated fails: on the same exit error and the same stderr, a pull line
followed by a marker line, `binaryValidator.Validate` reports the whole trimmed
stderr while `dockerValidator.Validate` reports only the detail from the marker
line on, so the two messages differ. -/
theorem validators_messages_differ :
    Option.map XdsError.Error
        (binaryValidator.Validate
          (failingRun true "Pulling\nerror initializing configuration: x\n".toList)
          ⟨"/usr/local/bin/envoy".toList⟩ []) =
      some "invalid xds configuration: Pulling\nerror initializing configuration: x".toList ∧
    Option.map XdsError.Error
        (dockerValidator.Validate
          (failingRun true "Pulling\nerror initializing configuration: x\n".toList)
          ⟨"envoy:latest".toList⟩ []) =
      some "invalid xds configuration: error initializing configuration: x".toList ∧
    Option.map XdsError.Error
        (binaryValidator.Validate
          (failingRun true "Pulling\nerror initializing configuration: x\n".toList)
          ⟨"/usr/local/bin/envoy".toList⟩ []) ≠
      Option.map XdsError.Error
        (dockerValidator.Validate
          (failingRun true "Pulling\nerror initializing configuration: x\n".toList)
          ⟨"envoy:latest".toList⟩ []) := by
  decide

/-- C10, amended: for a run that fails with an exit error, on the same stderr,
`dockerValidator.Validate` reports "invalid xds configuration: " followed by the
detail that `extractEnvoyError` finds in the trimmed stderr (when there is one),
while `binaryValidator.Validate` reports it followed by the whole trimmed
stderr (or by the process error when that is empty); the two messages are the
same exactly when the trimmed stderr has no marker line or is its own extracted
detail. -/
theorem validators_messages (run : Cmd → RunResult) (b : binaryValidator)
    (d : dockerValidator) (json : Str) (re : RunError) (stderr : Str)
    (hb : (run (b.cmd json)).err = some re ∧ (run (b.cmd json)).stderr = stderr)
    (hd : (run (d.cmd json)).err = some re ∧ (run (d.cmd json)).stderr = stderr)
    (hex : re.isExitError = true) :
    ∃ eb ed, b.Validate run json = some eb ∧ d.Validate run json = some ed ∧
      eb.Error = "invalid xds configuration: ".toList ++
        (if TrimSpace stderr = [] then re.Error else TrimSpace stderr) ∧
      ed.Error = "invalid xds configuration: ".toList ++
        (if extractEnvoyError (TrimSpace stderr) ≠ [] then extractEnvoyError (TrimSpace stderr)
          else if TrimSpace stderr = [] then re.Error else TrimSpace stderr) ∧
      (eb.Error = ed.Error ↔
        extractEnvoyError (TrimSpace stderr) = [] ∨
          extractEnvoyError (TrimSpace stderr) = TrimSpace stderr) := by
  obtain ⟨hb1, hb2⟩ := hb
  obtain ⟨hd1, hd2⟩ := hd
  have hB : b.Validate run json = some (ErrorfWrap .ErrInvalidXDS
      (if TrimSpace stderr = [] then re.Error else TrimSpace stderr)) := by
    unfold binaryValidator.Validate
    simp [hb1, hb2, hex]
  have hD : d.Validate run json = some (ErrorfWrap .ErrInvalidXDS
      (if extractEnvoyError (TrimSpace stderr) ≠ [] then extractEnvoyError (TrimSpace stderr)
        else if TrimSpace stderr = [] then re.Error else TrimSpace stderr)) := by
    unfold dockerValidator.Validate
    by_cases hx : extractEnvoyError (TrimSpace stderr) = [] <;> simp [hd1, hd2, hex, hx]
  refine ⟨_, _, hB, hD, errorfWrap_message _, errorfWrap_message _, ?_⟩
  rw [errorfWrap_message, errorfWrap_message, List.append_right_inj]
  by_cases hx : extractEnvoyError (TrimSpace stderr) = []
  · simp [hx]
  · have hraw : TrimSpace stderr ≠ [] := by
      intro e
      rw [e] at hx
      exact hx extractEnvoyError_nil
    simp only [hx, hraw, if_false, ne_eq, not_false_eq_true, if_true, false_or]
    exact eq_comm

/-- C10, amended, at a stderr without a marker line: both validators report the
whole trimmed stderr. -/
theorem validators_messages_witness :
    ∃ eb ed,
      binaryValidator.Validate (failingRun true " bad config\n".toList)
        ⟨"/usr/local/bin/envoy".toList⟩ [] = some eb ∧
      dockerValidator.Validate (failingRun true " bad config\n".toList)
        ⟨"envoy:latest".toList⟩ [] = some ed ∧
      eb.Error = "invalid xds configuration: ".toList ++
        (if TrimSpace " bad config\n".toList = [] then
          RunError.Error ⟨true, "exit status 1".toList⟩
          else TrimSpace " bad config\n".toList) ∧
      ed.Error = "invalid xds configuration: ".toList ++
        (if extractEnvoyError (TrimSpace " bad config\n".toList) ≠ [] then
          extractEnvoyError (TrimSpace " bad config\n".toList)
          else if TrimSpace " bad config\n".toList = [] then
            RunError.Error ⟨true, "exit status 1".toList⟩
          else TrimSpace " bad config\n".toList) ∧
      (eb.Error = ed.Error ↔
        extractEnvoyError (TrimSpace " bad config\n".toList) = [] ∨
          extractEnvoyError (TrimSpace " bad config\n".toList) =
            TrimSpace " bad config\n".toList) :=
  validators_messages (failingRun true " bad config\n".toList)
    ⟨"/usr/local/bin/envoy".toList⟩ ⟨"envoy:latest".toList⟩ []
    ⟨true, "exit status 1".toList⟩ " bad config\n".toList ⟨rfl, rfl⟩ ⟨rfl, rfl⟩ rfl


/-! ## More lemmas on the string functions -/

theorem getLast?_dropWhile {α : Type} (p : α → Bool) :
    ∀ l : List α, l.dropWhile p ≠ [] → (l.dropWhile p).getLast? = l.getLast?
  | [], h => by simp at h
  | c :: l, h => by
    cases hc : p c with
    | false => simp [List.dropWhile, hc]
    | true =>
      rw [List.dropWhile_cons_of_pos hc] at h ⊢
      rw [getLast?_dropWhile p l h]
      cases l with
      | nil => simp at h
      | cons d l => simp

theorem head?_dropWhile_false {α : Type} (p : α → Bool) (l : List α) (c : α)
    (h : (l.dropWhile p).head? = some c) : p c = false := by
  have := List.head?_dropWhile_not p l
  rw [h] at this
  exact this

/-- The first character of a trimmed string is not white space. -/
theorem TrimSpace_head (s : Str) (c : Char) (h : (TrimSpace s).head? = some c) :
    IsSpace c = false := by
  unfold TrimSpace at h
  rw [List.head?_reverse] at h
  have hne : (s.dropWhile IsSpace).reverse.dropWhile IsSpace ≠ [] := by
    intro e; rw [e] at h; simp at h
  rw [getLast?_dropWhile IsSpace _ hne, List.getLast?_reverse] at h
  exact head?_dropWhile_false IsSpace s c h

/-- The last character of a trimmed string is not white space. -/
theorem TrimSpace_getLast (s : Str) (c : Char) (h : (TrimSpace s).getLast? = some c) :
    IsSpace c = false := by
  unfold TrimSpace at h
  rw [List.getLast?_reverse] at h
  exact head?_dropWhile_false IsSpace _ c h

theorem TrimSpace_eq_nil_iff (s : Str) : TrimSpace s = [] ↔ ∀ c ∈ s, IsSpace c = true := by
  unfold TrimSpace
  rw [List.reverse_eq_nil_iff, List.dropWhile_eq_nil_iff]
  constructor
  · intro h
    have hu : s.dropWhile IsSpace = [] := by
      cases hd : s.dropWhile IsSpace with
      | nil => rfl
      | cons x u =>
        have h1 : IsSpace x = false := head?_dropWhile_false IsSpace s x (by rw [hd]; rfl)
        have h2 : IsSpace x = true := h x (by rw [hd]; simp)
        rw [h1] at h2
        exact absurd h2 (by simp)
    exact List.dropWhile_eq_nil_iff.mp hu
  · intro h x hx
    have hu : s.dropWhile IsSpace = [] := List.dropWhile_eq_nil_iff.mpr h
    rw [hu] at hx
    simp at hx

theorem not_mem_of_mem_Split (sep : Char) :
    ∀ (s : Str) (l : Str), l ∈ Split s sep → sep ∉ l
  | [], l, h => by
    have hl : l = [] := by simpa [Split] using h
    rw [hl]; simp
  | c :: s, l, h => by
    by_cases hc : c = sep
    · have h2 : l = [] ∨ l ∈ Split s sep := by simpa [Split, hc] using h
      rcases h2 with rfl | h3
      · simp
      · exact not_mem_of_mem_Split sep s l h3
    · cases hs : Split s sep with
      | nil => exact absurd hs (Split_ne_nil sep s)
      | cons piece pieces =>
        have h2 : l = c :: piece ∨ l ∈ pieces := by simpa [Split, hc, hs] using h
        rcases h2 with rfl | h3
        · have hp : sep ∉ piece :=
            not_mem_of_mem_Split sep s piece (by rw [hs]; simp)
          intro hm
          rcases List.mem_cons.mp hm with e | e
          · exact hc e.symm
          · exact hp e
        · exact not_mem_of_mem_Split sep s l (by rw [hs]; exact List.mem_cons_of_mem _ h3)

/-- A trimmed line that is not empty, of a line without line feed, is clean. -/
theorem CleanLine_TrimSpace (l : Str) (hnl : Char.ofNat 10 ∉ l) (hne : TrimSpace l ≠ []) :
    CleanLine (TrimSpace l) :=
  ⟨hne, fun h => hnl ((TrimSpace_within l).subset h), TrimSpace_head l, TrimSpace_getLast l⟩

/-- Joining clean lines by single spaces gives a clean line that starts with the
first of them. -/
theorem CleanLine_Join :
    ∀ (a : Str) (rest : List Str), (∀ e ∈ a :: rest, CleanLine e) →
      CleanLine (Join (a :: rest) [' ']) ∧ a <+: Join (a :: rest) [' ']
  | a, [], h => by
    have ha := h a (by simp)
    simpa [Join] using ha
  | a, b :: rest, h => by
    obtain ⟨ha1, ha2, ha3, ha4⟩ := h a (by simp)
    obtain ⟨⟨j1, j2, j3, j4⟩, _⟩ :=
      CleanLine_Join b rest (fun e he => h e (List.mem_cons_of_mem a he))
    have hj : Join (a :: b :: rest) [' '] = a ++ ' ' :: Join (b :: rest) [' '] := by
      simp [Join]
    rw [hj]
    refine ⟨⟨by simp, ?_, ?_, ?_⟩, List.prefix_append _ _⟩
    · intro hm
      rcases List.mem_append.mp hm with e | e
      · exact ha2 e
      · rcases List.mem_cons.mp e with e2 | e2
        · exact absurd e2 (by decide)
        · exact j2 e2
    · intro c hc
      apply ha3 c
      cases a with
      | nil => exact absurd rfl ha1
      | cons x a => simpa using hc
    · intro c hc
      apply j4 c
      rw [List.getLast?_append] at hc
      cases hJ : Join (b :: rest) [' '] with
      | nil => exact absurd hJ j1
      | cons y J =>
        rw [hJ] at hc
        rw [List.getLast?_cons_cons] at hc
        cases hl : (y :: J).getLast? with
        | none => simp at hl
        | some z => rw [hl] at hc; simpa using hc

theorem Contains_nil_marker : Contains [] marker = false := by decide

/-- The two cases of `extractEnvoyError`: no line contains the marker and the
result is empty, or the lines split at the first marker line and the result is
the join of the clean lines from there on, the first of which is the trimmed
marker line. -/
theorem extractEnvoyError_cases (s : Str) :
    ((∀ line ∈ Split s (Char.ofNat 10), Contains line marker = false) ∧
        extractEnvoyError s = []) ∨
      ∃ l kept, l ∈ Split s (Char.ofNat 10) ∧ Contains l marker = true ∧
        (∀ e ∈ TrimSpace l :: kept, CleanLine e) ∧
        extractEnvoyError s = Join (TrimSpace l :: kept) [' '] := by
  by_cases h : ∃ line ∈ Split s (Char.ofNat 10), Contains line marker = true
  · right
    obtain ⟨pre, l, post, e1, e2, e3⟩ :=
      exists_first_split (fun line => Contains line marker) _ h
    have hres := extractEnvoyError_of_split s pre post l e1 e2 e3
    have hl : TrimSpace l ≠ [] := by
      intro e
      have := Contains_TrimSpace_marker l
      rw [e, Contains_nil_marker, e3] at this
      exact absurd this (by simp)
    have hmem : ∀ x ∈ l :: post, x ∈ Split s (Char.ofNat 10) := by
      intro x hx
      rw [e1]
      exact List.mem_append_right pre hx
    refine ⟨l, (post.map TrimSpace).filter (fun t => t != []), hmem l (by simp), e3, ?_, ?_⟩
    · intro e he
      rcases List.mem_cons.mp he with rfl | he2
      · exact CleanLine_TrimSpace l (not_mem_of_mem_Split _ s l (hmem l (by simp))) hl
      · obtain ⟨he3, he4⟩ := List.mem_filter.mp he2
        obtain ⟨x, hx, rfl⟩ := List.mem_map.mp he3
        exact CleanLine_TrimSpace x
          (not_mem_of_mem_Split _ s x (hmem x (List.mem_cons_of_mem l hx)))
          (by simpa using he4)
    · rw [hres]
      simp [List.filter_cons, hl]
  · left
    have hall : ∀ line ∈ Split s (Char.ofNat 10), Contains line marker = false := by
      intro line hline
      cases hc : Contains line marker with
      | false => rfl
      | true => exact absurd ⟨line, hline, hc⟩ h
    refine ⟨hall, ?_⟩
    have hidx : IndexFunc (Split s (Char.ofNat 10))
        (fun line => Contains (TrimSpace line) marker) = -1 := by
      unfold IndexFunc
      apply IndexFunc_loop_none
      intro v hv
      show Contains (TrimSpace v) marker = false
      rw [Contains_TrimSpace_marker]
      exact hall v hv
    simp only [extractEnvoyError, hidx]
    rfl

theorem extractEnvoyError_eq_nil_iff (s : Str) :
    extractEnvoyError s = [] ↔
      ∀ line ∈ Split s (Char.ofNat 10), Contains line marker = false := by
  rcases extractEnvoyError_cases s with ⟨h1, h2⟩ | ⟨l, kept, h1, h2, h3, h4⟩
  · exact ⟨fun _ => h1, fun _ => h2⟩
  · have hne : extractEnvoyError s ≠ [] := by
      rw [h4]
      exact (CleanLine_Join (TrimSpace l) kept h3).1.1
    constructor
    · intro h; exact absurd h hne
    · intro h
      rw [h l h1] at h2
      exact absurd h2 (by simp)

/-! ## Lemmas on `AgwCollections.HasSynced` -/

/-- A guarded pair `x != nil && x.HasSynced()` at the head of a chain either
lets the chain go on (the collection is there and synced) or ends it with
false; it never panics. -/
theorem andChain_guarded :
    ∀ xs : List (Option KrtCollection),
      andChain (guardedOperands xs) =
        some (xs.all fun x =>
          match x with
          | some col => col.synced
          | none => false)
  | [] => rfl
  | none :: xs => by simp [guardedOperands, andChain]
  | some ⟨false⟩ :: xs => by simp [guardedOperands, andChain, KrtCollection.HasSynced]
  | some ⟨true⟩ :: xs => by
    simp [guardedOperands, andChain, KrtCollection.HasSynced, andChain_guarded xs]

theorem HasSynced_eq (c : AgwCollections) :
    c.HasSynced =
      some ((namedCollections c).all fun x =>
        match x with
        | some col => col.synced
        | none => false) := by
  rw [← andChain_guarded]
  rfl

/-! ## The remaining claims -/

/-- C11: `AddTypedConfig` sets with last-write-wins: on every map state (the nil
map included), after `AddTypedConfig(k, v)` the call `GetTypedConfig(k)` returns
`v`, and after `AddTypedConfig(k, v1)` then `AddTypedConfig(k, v2)` it returns
`v2`. -/
theorem addTypedConfig_last_write_wins {M : Type} (m : TypedFilterConfigMap M)
    (k : String) (v v1 v2 : Option M) :
    (∃ m1, TypedFilterConfigMap.AddTypedConfig (some m) k v = some m1 ∧
        TypedFilterConfigMap.GetTypedConfig (some m1) k = v) ∧
      ∃ m1 m2, TypedFilterConfigMap.AddTypedConfig (some m) k v1 = some m1 ∧
        TypedFilterConfigMap.AddTypedConfig (some m1) k v2 = some m2 ∧
        TypedFilterConfigMap.GetTypedConfig (some m2) k = v2 := by
  constructor
  · refine ⟨_, rfl, ?_⟩
    cases v <;> simp [TypedFilterConfigMap.GetTypedConfig]
  · refine ⟨_, _, rfl, rfl, ?_⟩
    cases v2 <;> simp [TypedFilterConfigMap.GetTypedConfig]

/-- C12: every hook of `UnimplementedProxyTranslationPass` and of
`UnimplementedAgentgatewayTranslationPass` is a no-op on every input: the hooks
that return an error return nil, `HttpFilters` and `NetworkFilters` return no
filter and a nil error, `ResourcesToAdd` returns no cluster, and every hook
leaves its context and output arguments as they were. -/
theorem unimplemented_hooks_noop {Ctx Out Pol Backend FilterChain Filter Cluster : Type}
    (p : UnimplementedProxyTranslationPass) (a : UnimplementedAgentgatewayTranslationPass)
    (pCtx : Ctx) (out : Out) (policy : Pol) (inp : Backend) (fc : FilterChain) :
    p.ApplyForRoute pCtx out = ⟨pCtx, out, none⟩ ∧
      p.ApplyForBackend pCtx inp out = ⟨pCtx, out, none⟩ ∧
      p.ApplyForRouteBackend policy pCtx = ⟨pCtx, policy, none⟩ ∧
      p.ApplyHCM pCtx out = ⟨pCtx, out, none⟩ ∧
      a.ApplyForRoute pCtx out = ⟨pCtx, out, none⟩ ∧
      a.ApplyForBackend pCtx out = ⟨pCtx, out, none⟩ ∧
      a.ApplyForRouteBackend policy pCtx = ⟨pCtx, policy, none⟩ ∧
      (p.HttpFilters fc : List Filter × Option GoError) = ([], none) ∧
      (p.NetworkFilters : List Filter × Option GoError) = ([], none) ∧
      (p.ResourcesToAdd : Resources Cluster).Clusters = [] ∧
      p.ApplyListenerPlugin pCtx out = (pCtx, out) ∧
      p.ApplyRouteConfigPlugin pCtx out = (pCtx, out) ∧
      p.ApplyVhostPlugin pCtx out = (pCtx, out) :=
  ⟨rfl, rfl, rfl, rfl, rfl, rfl, rfl, rfl, rfl, rfl, rfl, rfl, rfl⟩

/-- C13, the code at the failing input: with every collection in place and
synced except `Nodes`, which is in place and not synced, `HasSynced` returns
true. -/
theorem hasSynced_ignores_nodes :
    allButNodesSynced.HasSynced = some true ∧
      KrtCollection.HasSynced allButNodesSynced.Nodes = some false := by
  decide

/-- C14: for every `AgwCollections` value, whichever of its collections are nil,
`HasSynced` returns (no nil dereference), and it returns true if and only if
each of the nineteen collections it names is non-nil and reports synced. -/
theorem hasSynced_iff (c : AgwCollections) :
    ∃ r, c.HasSynced = some r ∧
      (r = true ↔ ∀ x ∈ namedCollections c, ∃ col, x = some col ∧ col.synced = true) := by
  refine ⟨_, HasSynced_eq c, ?_⟩
  rw [List.all_eq_true]
  constructor
  · intro h x hx
    have := h x hx
    cases x with
    | none => simp at this
    | some col => exact ⟨col, rfl, this⟩
  · intro h x hx
    obtain ⟨col, rfl, hc⟩ := h x hx
    exact hc

/-- C15: called with one or more arguments (empty or not), `NewBinary` (resp.
`NewDocker`) builds a validator whose path (resp. image) is exactly the first
argument, whatever the rest; called with no argument it builds one with the
default path "/usr/local/bin/envoy" (resp. the default image). -/
theorem newValidator_first_argument (first : Str) (rest : List Str) :
    NewBinary (first :: rest) = some { path := first } ∧
      NewDocker (first :: rest) = some { img := first } ∧
      NewBinary [] = some { path := "/usr/local/bin/envoy".toList } ∧
      NewDocker [] = some { img := defaultEnvoyImage } :=
  ⟨by simp [NewBinary], by simp [NewDocker], rfl, rfl⟩

/-- C16 as stated fails: called with the empty string, `NewBinary` and
`NewDocker` build a validator whose path (resp. image) is the empty string, not
the default. -/
theorem newValidator_empty_string_kept :
    NewBinary [[]] = some { path := [] } ∧ NewDocker [[]] = some { img := [] } ∧
      NewBinary [[]] ≠ some { path := defaultEnvoyPath } ∧
      NewDocker [[]] ≠ some { img := defaultEnvoyImage } := by
  decide

/-- C16, amended: when no argument is given, `NewBinary` builds a validator with
the default path and `NewDocker` one with the default image; and a validator
built from a call without argument, or with a first argument that is not the
empty string, never has an empty path (resp. image). -/
theorem newValidator_default (args : List Str) (hfirst : args.head? ≠ some []) :
    ∃ b d, NewBinary args = some b ∧ NewDocker args = some d ∧
      (args = [] → b.path = "/usr/local/bin/envoy".toList ∧ d.img = defaultEnvoyImage) ∧
      b.path ≠ [] ∧ d.img ≠ [] := by
  cases args with
  | nil =>
    exact ⟨_, _, rfl, rfl, fun _ => ⟨rfl, rfl⟩, by decide, by decide⟩
  | cons first rest =>
    have hne : first ≠ [] := by
      intro e
      exact hfirst (by simp [e])
    exact ⟨{ path := first }, { img := first }, by simp [NewBinary], by simp [NewDocker],
      fun h => by simp at h, hne, hne⟩

/-- C16, amended, at the call without argument. -/
theorem newValidator_default_witness :
    ∃ b d, NewBinary [] = some b ∧ NewDocker [] = some d ∧
      (([] : List Str) = [] →
        b.path = "/usr/local/bin/envoy".toList ∧ d.img = defaultEnvoyImage) ∧
      b.path ≠ [] ∧ d.img ≠ [] :=
  newValidator_default [] (by decide)

/-- C18: for a run that fails with an exit error, `dockerValidator.Validate`
returns an error whose message is "invalid xds configuration: " followed by
`extractEnvoyError` of the trimmed stderr when a line of the trimmed stderr
contains the marker, and otherwise followed by the whole trimmed stderr, or by
the text of the process error when the trimmed stderr is empty. -/
theorem dockerValidate_message (run : Cmd → RunResult) (d : dockerValidator) (json : Str)
    (re : RunError) (hrun : (run (d.cmd json)).err = some re)
    (hex : re.isExitError = true) :
    ∃ e, d.Validate run json = some e ∧
      ((∃ line ∈ Split (TrimSpace (run (d.cmd json)).stderr) (Char.ofNat 10),
          Contains line marker = true) →
        e.Error = "invalid xds configuration: ".toList ++
          extractEnvoyError (TrimSpace (run (d.cmd json)).stderr)) ∧
      ((∀ line ∈ Split (TrimSpace (run (d.cmd json)).stderr) (Char.ofNat 10),
          Contains line marker = false) →
        e.Error = "invalid xds configuration: ".toList ++
          (if TrimSpace (run (d.cmd json)).stderr = [] then re.Error
            else TrimSpace (run (d.cmd json)).stderr)) := by
  by_cases hx : extractEnvoyError (TrimSpace (run (d.cmd json)).stderr) = []
  · refine ⟨ErrorfWrap .ErrInvalidXDS
        (if TrimSpace (run (d.cmd json)).stderr = [] then re.Error
          else TrimSpace (run (d.cmd json)).stderr), ?_, ?_, ?_⟩
    · unfold dockerValidator.Validate
      simp [hrun, hex, hx]
    · rintro ⟨line, hl, hc⟩
      rw [(extractEnvoyError_eq_nil_iff _).mp hx line hl] at hc
      exact absurd hc (by simp)
    · intro _
      exact errorfWrap_message _
  · refine ⟨ErrorfWrap .ErrInvalidXDS
        (extractEnvoyError (TrimSpace (run (d.cmd json)).stderr)), ?_, ?_, ?_⟩
    · unfold dockerValidator.Validate
      simp [hrun, hex, hx]
    · intro _
      exact errorfWrap_message _
    · intro h
      exact absurd ((extractEnvoyError_eq_nil_iff _).mpr h) hx

/-- C18 at a stderr with a pull line before the marker line. -/
theorem dockerValidate_message_witness :
    ∃ e, dockerValidator.Validate
        (failingRun true "Pulling\nerror initializing configuration: x\n".toList)
        ⟨"envoy:latest".toList⟩ [] = some e ∧
      e.Error = "invalid xds configuration: error initializing configuration: x".toList := by
  obtain ⟨e, h1, h2, _⟩ := dockerValidate_message
    (failingRun true "Pulling\nerror initializing configuration: x\n".toList)
    ⟨"envoy:latest".toList⟩ [] ⟨true, "exit status 1".toList⟩ rfl rfl
  refine ⟨e, h1, ?_⟩
  rw [h2 ⟨"error initializing configuration: x".toList, by decide, by decide⟩]
  decide

/-- C19: for a run that fails with an exit error, `binaryValidator.Validate`
returns an error that wraps `ErrInvalidXDS` and whose message is "invalid xds
configuration: " followed by a detail: the trimmed stderr when that is not
empty, the text of the process error when stderr is empty or only white space;
the detail is not empty as long as the process error has a text. -/
theorem binaryValidate_message (run : Cmd → RunResult) (b : binaryValidator) (json : Str)
    (re : RunError) (hrun : (run (b.cmd json)).err = some re)
    (hex : re.isExitError = true) :
    ∃ e detail, b.Validate run json = some e ∧ e.IsErrInvalidXDS = true ∧
      e.Error = "invalid xds configuration: ".toList ++ detail ∧
      (TrimSpace (run (b.cmd json)).stderr ≠ [] →
        detail = TrimSpace (run (b.cmd json)).stderr) ∧
      ((∀ c ∈ (run (b.cmd json)).stderr, IsSpace c = true) → detail = re.Error) ∧
      (re.Error ≠ [] → detail ≠ []) := by
  refine ⟨ErrorfWrap .ErrInvalidXDS
      (if TrimSpace (run (b.cmd json)).stderr = [] then re.Error
        else TrimSpace (run (b.cmd json)).stderr), _, ?_, rfl, errorfWrap_message _, ?_, ?_, ?_⟩
  · unfold binaryValidator.Validate
    simp [hrun, hex]
  · intro h; simp [h]
  · intro h
    simp [(TrimSpace_eq_nil_iff _).mpr h]
  · intro h
    by_cases hr : TrimSpace (run (b.cmd json)).stderr = []
    · simpa [hr] using h
    · simp [hr]

/-- C19 at a stderr of white space only: the detail is the text of the process
error. -/
theorem binaryValidate_message_witness :
    ∃ e, binaryValidator.Validate (failingRun true " \n\t".toList)
        ⟨"/usr/local/bin/envoy".toList⟩ [] = some e ∧
      e.Error = "invalid xds configuration: exit status 1".toList := by
  obtain ⟨e, detail, h1, _, h3, _, h5, _⟩ := binaryValidate_message
    (failingRun true " \n\t".toList) ⟨"/usr/local/bin/envoy".toList⟩ []
    ⟨true, "exit status 1".toList⟩ rfl rfl
  refine ⟨e, h1, ?_⟩
  rw [h3, h5 (by decide)]
  decide

/-- C20: `extractEnvoyError s` is the empty string if and only if no line of `s`
contains "error initializing configuration"; when it is not empty it contains
the marker, contains no line feed, and neither starts nor ends with a white
space character. -/
theorem extractEnvoyError_empty_iff (s : Str) :
    (extractEnvoyError s = [] ↔
        ∀ line ∈ Split s (Char.ofNat 10), Contains line marker = false) ∧
      (extractEnvoyError s ≠ [] →
        Contains (extractEnvoyError s) marker = true ∧
          Char.ofNat 10 ∉ extractEnvoyError s ∧
          (∀ c, (extractEnvoyError s).head? = some c → IsSpace c = false) ∧
          (∀ c, (extractEnvoyError s).getLast? = some c → IsSpace c = false)) := by
  refine ⟨extractEnvoyError_eq_nil_iff s, ?_⟩
  intro hne
  rcases extractEnvoyError_cases s with ⟨_, h2⟩ | ⟨l, kept, h1, h2, h3, h4⟩
  · exact absurd h2 hne
  · obtain ⟨⟨_, c2, c3, c4⟩, hpre⟩ := CleanLine_Join (TrimSpace l) kept h3
    rw [h4]
    refine ⟨?_, c2, c3, c4⟩
    rw [Contains_iff_within]
    have hm : marker <:+: TrimSpace l := by
      rw [← Contains_iff_within, Contains_TrimSpace_marker]
      exact h2
    exact hm.trans hpre.isInfix

/-- C20 at a stderr with a pull line, an indented marker line and a detail line
followed by a blank one. -/
theorem extractEnvoyError_empty_iff_witness :
    extractEnvoyError "Pulling\n  error initializing configuration: x\n d1 \n\n".toList ≠ [] ∧
      Contains
        (extractEnvoyError "Pulling\n  error initializing configuration: x\n d1 \n\n".toList)
        marker = true ∧
      Char.ofNat 10 ∉
        extractEnvoyError "Pulling\n  error initializing configuration: x\n d1 \n\n".toList :=
  ⟨by decide,
    ((extractEnvoyError_empty_iff
      "Pulling\n  error initializing configuration: x\n d1 \n\n".toList).2 (by decide)).1,
    ((extractEnvoyError_empty_iff
      "Pulling\n  error initializing configuration: x\n d1 \n\n".toList).2 (by decide)).2.1⟩

end Kgateway
